import Mathlib

/-!
Verification development for the chunked falling-sand simulation core of the
granular repository (crate granular-core, module simulation: material.rs,
cell.rs, grid.rs, chunk.rs, mod.rs).

Machine integers are modelled as Nat (u8 channels, usize ticks and indices)
and Int (i16 grid coordinates, i32 chunk coordinates); all values that occur
stay far from the wrap-around boundaries.  Rust fixed-size arrays and Vec are
modelled as Lists together with a well-formedness predicate fixing their
lengths; raw pointers into the simulation-owned chunk array are modelled as
indices into that array.  The worker-pool dispatch of one phase is modelled
as a sequential fold in array order; the checkerboard phase schedule makes
the grid sets touched by the chunks of one phase pairwise disjoint, so the
parallel execution is equivalent to this sequential model.
-/

/-- Total list read with a default, mirroring indexing into a Rust slice
(the proofs establish that every access is in range). -/
def lget : List α → Nat → α → α
  | [], _, d => d
  | a :: _, 0, _ => a
  | _ :: l, n + 1, d => lget l n d

/-- Total list write, mirroring assignment through a Rust index
(the proofs establish that every write is in range). -/
def lset : List α → Nat → α → List α
  | [], _, _ => []
  | _ :: l, 0, b => b :: l
  | a :: l, n + 1, b => a :: lset l n b

/-- Display color of a cell: four 8-bit RGBA channels (palette::Srgba<u8>). -/
structure CellColor where
  red : Nat
  green : Nat
  blue : Nat
  alpha : Nat
deriving DecidableEq, Repr

/-- CellColor::new. -/
def CellColor.new (r g b a : Nat) : CellColor := ⟨r, g, b, a⟩

/-- The closed set of cell materials (material.rs). -/
inductive Material where
  | Empty
  | Sand
  | Red
  | Green
  | Blue
deriving DecidableEq, Repr, BEq

/-- Material::color (material.rs, the fixed display-color table). -/
def Material.color : Material → CellColor
  | .Empty => CellColor.new 10 10 10 255
  | .Sand => CellColor.new 221 193 48 255
  | .Red => CellColor.new 255 0 0 255
  | .Green => CellColor.new 0 255 0 255
  | .Blue => CellColor.new 0 0 255 255

/-- One grid slot (cell.rs): color, material, and the tick stamp that
prevents double-processing within one update pass. -/
structure Cell where
  color : CellColor
  material : Material
  last_processed_in_tick : Nat
deriving DecidableEq, Repr

/-- Cell::new. -/
def Cell.new (material : Material) : Cell :=
  { color := material.color, material := material, last_processed_in_tick := 0 }

instance : Inhabited Cell := ⟨Cell.new .Empty⟩

/-- Local grid position, glam::I16Vec2 modelled as a pair of integers. -/
abbrev GridPos := Int × Int

/-- CHUNK_SIZE = 32 (chunk.rs). -/
def CHUNK_SIZE : Int := 32

/-- NUM_CELLS_IN_CHUNK = 32 * 32 (chunk.rs). -/
def NUM_CELLS_IN_CHUNK : Nat := 1024

/-- The dense per-chunk cell array plus the parallel RGBA8 byte buffer
(grid.rs).  cells has length NUM_CELLS_IN_CHUNK and texture_data has length
4 * NUM_CELLS_IN_CHUNK; these lengths are carried by the well-formedness
predicate WFchunks below. -/
structure CellGrid where
  cells : List Cell
  texture_data : List Nat
deriving DecidableEq, Repr

namespace CellGrid

/-- CellGrid::empty: all cells Empty, texture buffer zero-filled
(Vec::with_capacity + resize_with(4 * NUM_CELLS_IN_CHUNK, || 0)). -/
def empty : CellGrid :=
  { cells := List.replicate NUM_CELLS_IN_CHUNK (Cell.new .Empty),
    texture_data := List.replicate (4 * NUM_CELLS_IN_CHUNK) 0 }

/-- CellGrid::new, which just delegates to CellGrid::empty. -/
def new : CellGrid := empty

/-- CellGrid::new_material: every cell set to the material, texture buffer
pre-filled with the material's four color channels per cell. -/
def new_material (material : Material) : CellGrid :=
  { cells := List.replicate NUM_CELLS_IN_CHUNK (Cell.new material),
    texture_data :=
      (List.replicate NUM_CELLS_IN_CHUNK
        [material.color.red, material.color.green,
         material.color.blue, material.color.alpha]).flatten }

/-- CellGrid::grid_idx: pos.x as usize + pos.y as usize * CHUNK_SIZE.
The i16 → usize cast is value-preserving on the in-range positions at which
the simulation indexes (proved below); Int.toNat models it. -/
def grid_idx (pos : GridPos) : Nat :=
  pos.1.toNat + pos.2.toNat * 32

/-- CellGrid::get_cell (by value; the Rust code returns a reference). -/
def get_cell (g : CellGrid) (pos : GridPos) : Cell :=
  lget g.cells (grid_idx pos) default

/-- CellGrid::set_color_at_grididx: writes the four channels into the
texture byte buffer only. -/
def set_color_at_grididx (g : CellGrid) (idx : Nat) (color : CellColor) : CellGrid :=
  let td := lset (lset (lset (lset g.texture_data (idx * 4) color.red)
    (idx * 4 + 1) color.green) (idx * 4 + 2) color.blue) (idx * 4 + 3) color.alpha
  { g with texture_data := td }

/-- CellGrid::set_color. -/
def set_color (g : CellGrid) (pos : GridPos) (color : CellColor) : CellGrid :=
  g.set_color_at_grididx (grid_idx pos) color

/-- CellGrid::set_cell: stores the cell and mirrors its color into the
texture buffer. -/
def set_cell (g : CellGrid) (pos : GridPos) (cell : Cell) : CellGrid :=
  let idx := grid_idx pos
  set_color_at_grididx { g with cells := lset g.cells idx cell } idx cell.color

/-- CellGrid::replace_cell.  In the Rust source, mem::replace is applied to a
temporary holding the &mut Cell returned by get_cell_at_mut, so it swaps that
temporary reference rather than the grid slot: the cells array is left
unchanged and only the texture bytes receive the new cell's color. -/
def replace_cell (g : CellGrid) (pos : GridPos) (cell : Cell) : CellGrid :=
  g.set_color_at_grididx (grid_idx pos) cell.color

/-- CellGrid::get_color. -/
def get_color (g : CellGrid) (pos : GridPos) : CellColor :=
  let idx := grid_idx pos
  CellColor.new (lget g.texture_data (idx * 4) 0) (lget g.texture_data (idx * 4 + 1) 0)
    (lget g.texture_data (idx * 4 + 2) 0) (lget g.texture_data (idx * 4 + 3) 0)

/-- CellGrid::get_texture_data. -/
def get_texture_data (g : CellGrid) : List Nat := g.texture_data

end CellGrid

/-- HALO_DIRECTIONS (chunk.rs): the 8 neighbor offsets, in source order. -/
def HALO_DIRECTIONS : List (Int × Int) :=
  [(-1, -1), (0, -1), (1, -1), (-1, 0), (1, 0), (-1, 1), (0, 1), (1, 1)]

/-- A chunk (chunk.rs): its position in chunk-grid space, its own grid, and
the 8 optional halo links.  A halo entry Some j models the raw pointer into
the grid owned by the chunk at index j of the Simulation's chunk array. -/
structure Chunk where
  position : Int × Int
  grid : CellGrid
  halo : List (Option Nat)
deriving DecidableEq, Repr

/-- Default chunk, matching the placeholder the Simulation constructor
builds with core::array::from_fn before filling the array. -/
instance : Inhabited Chunk :=
  ⟨{ position := (0, 0), grid := CellGrid.empty, halo := List.replicate 8 none }⟩

namespace Chunk

/-- Chunk::should_update: checkerboard phase membership, a pure function of
the chunk position. -/
def should_update (c : Chunk) (phase : Nat) : Bool :=
  ((c.position.1.natAbs &&& 1) ||| ((c.position.2.natAbs &&& 1) <<< 1)) == phase

/-- The enumerate-and-compare loop of Chunk::get_grid_from_dir: the index of
the first occurrence of the hint in the remaining directions, counting from
i. -/
def scanDirIdx (dir_hint : Int × Int) : List (Int × Int) → Nat → Option Nat
  | [], _ => none
  | d :: rest, i => if d = dir_hint then some i else scanDirIdx dir_hint rest (i + 1)

/-- Chunk::get_grid_from_dir.  The source returns Option<&mut CellGrid>;
grids are modelled by chunk-array indices, with the chunk's own index ci
standing for its own grid.  The unreachable eprintln/unimplemented branch
(a hint that is neither (0,0) nor a halo direction) is mapped to none; it is
proved unreachable for every hint the update computes. -/
def get_grid_from_dir (c : Chunk) (ci : Nat) (dir_hint : Int × Int) : Option Nat :=
  if dir_hint = ((0 : Int), (0 : Int)) then some ci
  else
    match scanDirIdx dir_hint HALO_DIRECTIONS 0 with
    | some i => lget c.halo i none
    | none => none

/-- The 0..CHUNK_SIZE row/column iterator of Chunk::update_range, reversed
when the flag is set. -/
def update_range (reverse : Bool) : List Int :=
  if reverse then ((List.range 32).map fun n => (n : Int)).reverse
  else (List.range 32).map fun n => (n : Int)

/-- The order in which Chunk::update visits local coordinates at a given
tick: the outer loop over y uses tick.is_multiple_of(2) as its reverse flag,
the inner loop over x uses tick.is_multiple_of(4). -/
def visitOrder (tick : Nat) : List GridPos :=
  (update_range (tick % 2 == 0)).flatMap fun y =>
    (update_range (tick % 4 == 0)).map fun x => (x, y)

end Chunk

/-- Overwrite the cell at array index i of the grid of chunk k, modelling a
write through a &mut Cell obtained from that chunk's grid. -/
def writeCell (cs : List Chunk) (k : Nat) (i : Nat) (c : Cell) : List Chunk :=
  let ch := lget cs k default
  lset cs k { ch with grid := { ch.grid with cells := lset ch.grid.cells i c } }

/-- Overwrite the texture bytes of cell index i of the grid of chunk k,
modelling CellGrid::set_color_at_grididx through a grid pointer. -/
def writeColor (cs : List Chunk) (k : Nat) (i : Nat) (color : CellColor) : List Chunk :=
  let ch := lget cs k default
  lset cs k { ch with grid := ch.grid.set_color_at_grididx i color }

namespace Chunk

/-- The body of the per-cell loop of Chunk::update at local position p of
chunk ci: skip stamped cells, apply the Sand rule, resolve the target grid
through the halo, and on a move perform the stamp write, the two-slot swap
and the two set_color calls, in source order. -/
def updateCell (cs : List Chunk) (ci : Nat) (tick : Nat) (p : GridPos) : List Chunk :=
  let c := lget cs ci default
  let cell := c.grid.get_cell p
  let own_material := cell.material
  if cell.last_processed_in_tick = tick then cs
  else if own_material = Material.Sand then
    let below_pos : GridPos := (p.1, p.2 + 1)
    let dir_hint : Int × Int :=
      ((if 32 ≤ below_pos.1 then (1 : Int) else 0) - (if below_pos.1 < 0 then 1 else 0),
       (if 32 ≤ below_pos.2 then (1 : Int) else 0) - (if below_pos.2 < 0 then 1 else 0))
    match c.get_grid_from_dir ci dir_hint with
    | none => cs
    | some cj =>
      let bp : GridPos := (below_pos.1.emod 32, below_pos.2.emod 32)
      let below_mat := ((lget cs cj default).grid.get_cell bp).material
      if below_mat = Material.Empty then
        let gq := CellGrid.grid_idx p
        let gb := CellGrid.grid_idx bp
        let cs1 := writeCell cs ci gq { cell with last_processed_in_tick := tick }
        let u := (lget cs1 ci default).grid.get_cell p
        let v := (lget cs1 cj default).grid.get_cell bp
        let cs2 := writeCell cs1 ci gq v
        let cs3 := writeCell cs2 cj gb u
        let cs4 := writeColor cs3 ci gq below_mat.color
        writeColor cs4 cj gb own_material.color
      else cs
  else cs

/-- Chunk::update: run the per-cell body over all local coordinates in the
tick's sweep order.  cs is the simulation's chunk array and ci the index of
the chunk being updated. -/
def update (cs : List Chunk) (ci : Nat) (tick : Nat) : List Chunk :=
  (visitOrder tick).foldl (fun acc p => updateCell acc ci tick p) cs

end Chunk

/-- NUM_CHUNKS_X = NUM_CHUNKS_Y = 8, NUM_CHUNKS_TOTAL = 64 (mod.rs). -/
def NUM_CHUNKS_X : Nat := 8

/-- Simulation state (mod.rs): the chunk array, the stubbed recentring
state, and the tick counter.  The GeeseContextHandle field is engine wiring
outside the simulation core and is not part of the model. -/
structure Simulation where
  chunks : List Chunk
  center_position : Int × Int
  center_chunk_pos : Int × Int
  tick : Nat

namespace Simulation

/-- Simulation::get_idx_in_chunks: wraparound/offset row-major indexing of a
chunk position into the fixed array. -/
def get_idx_in_chunks (chunk_pos : Int × Int) : Nat :=
  let arr_x := ((chunk_pos.1 + 4).emod 8).toNat
  let arr_y := ((chunk_pos.2 + 4).emod 8).toNat
  arr_y * NUM_CHUNKS_X + arr_x

/-- Overwrite the halo array of chunk i, modelling the store into
self.chunks[chunk_idx].halo[neigh_idx]. -/
def setHalo (acc : List Chunk) (i : Nat) (h : List (Option Nat)) : List Chunk :=
  lset acc i { lget acc i default with halo := h }

/-- One direction's part of Simulation::setup for the chunk at index i
whose position was read as chunk_pos: compute the neighbor position, locate
it through get_idx_in_chunks, and store the index when a chunk with exactly
that position is there. -/
def setupStep (chunk_pos : Int × Int) (i : Nat) (acc : List Chunk)
    (nd : Nat × (Int × Int)) : List Chunk :=
  let neigh_pos := (chunk_pos.1 + nd.2.1, chunk_pos.2 + nd.2.2)
  let j := get_idx_in_chunks neigh_pos
  if (lget acc j default).position = neigh_pos then
    setHalo acc i (lset (lget acc i default).halo nd.1 (some j))
  else acc

/-- One chunk's part of Simulation::setup: for each of the 8 enumerated halo
directions, run setupStep with the chunk's position hoisted out of the
loop as in the source. -/
def setupChunk (cs : List Chunk) (i : Nat) : List Chunk :=
  HALO_DIRECTIONS.enum.foldl (setupStep (lget cs i default).position i) cs

/-- Simulation::setup: wire every chunk's halo links once. -/
def setup (s : Simulation) : Simulation :=
  { s with chunks := (List.range s.chunks.length).foldl setupChunk s.chunks }

/-- Simulation::new: the fixed 8 x 8 layout, positions (-4..3) x (-4..3) in
row-major order, the row y = 0 seeded with Sand and the rest Empty.  The
core::array::from_fn placeholder array is fully overwritten by this loop. -/
def new : Simulation :=
  { chunks :=
      ((List.range 8).map fun n => (n : Int) - 4).flatMap fun y =>
        ((List.range 8).map fun n => (n : Int) - 4).map fun x =>
          { position := (x, y),
            grid := CellGrid.new_material (if y = 0 then .Sand else .Empty),
            halo := List.replicate 8 none }
    center_position := (0, 0)
    center_chunk_pos := (0, 0)
    tick := 0 }

/-- Simulation::DEBUG_UPDATE. -/
def DEBUG_UPDATE : Bool := false

/-- One phase of Simulation::update: dispatch Chunk::update for every chunk
whose should_update accepts the phase.  The worker-pool dispatch is modelled
sequentially in array order (see the module comment). -/
def runPhase (cs : List Chunk) (phase : Nat) (tick : Nat) : List Chunk :=
  (List.range cs.length).foldl (fun acc ci =>
    if (lget acc ci default).should_update phase then Chunk.update acc ci tick else acc) cs

/-- The four phases of one tick, run in sequence. -/
def runPhases (cs : List Chunk) (tick : Nat) : List Chunk :=
  (List.range 4).foldl (fun acc phase => runPhase acc phase tick) cs

/-- Simulation::update: increment the tick; in debug mode run the single
phase selected by (tick / 16) % 4, otherwise run all four phases once the
warm-up threshold of 60 ticks has passed. -/
def update (s : Simulation) : Simulation :=
  let tick := s.tick + 1
  if DEBUG_UPDATE then
    let phase := (tick / 16) % 4
    { s with tick := tick, chunks := runPhase s.chunks phase tick }
  else if tick > 60 then
    { s with tick := tick, chunks := runPhases s.chunks tick }
  else
    { s with tick := tick }

end Simulation

/-- The cell stored at array index i of the grid of chunk k. -/
def cellAt (cs : List Chunk) (k : Nat) (i : Nat) : Cell :=
  lget (lget cs k default).grid.cells i default

/-- The texture byte at offset j of the grid of chunk k. -/
def texAt (cs : List Chunk) (k : Nat) (j : Nat) : Nat :=
  lget (lget cs k default).grid.texture_data j 0

/-- A local position inside the 32 x 32 chunk. -/
def inRange (p : GridPos) : Prop :=
  0 ≤ p.1 ∧ p.1 < 32 ∧ 0 ≤ p.2 ∧ p.2 < 32

instance (p : GridPos) : Decidable (inRange p) := by
  unfold inRange; infer_instance

/-- The below-position of p wrapped into local coordinates by Euclidean
modulo, as Chunk::update computes it. -/
def belowWrap (p : GridPos) : GridPos :=
  (p.1.emod 32, (p.2 + 1).emod 32)

/-- An Option halo entry points below the given bound. -/
def haloLt (h : Option Nat) (n : Nat) : Prop :=
  match h with
  | none => True
  | some j => j < n

instance (h : Option Nat) (n : Nat) : Decidable (haloLt h n) := by
  cases h <;> unfold haloLt <;> infer_instance

/-- Well-formedness of a chunk array: every grid carries its Rust array
lengths and every halo pointer points into the array, as the types and the
setup wiring of the Rust source guarantee. -/
def WFchunks (cs : List Chunk) : Prop :=
  ∀ c ∈ cs, c.grid.cells.length = NUM_CELLS_IN_CHUNK ∧
    c.grid.texture_data.length = 4 * NUM_CELLS_IN_CHUNK ∧
    c.halo.length = 8 ∧
    ∀ h ∈ c.halo, haloLt h cs.length

instance (cs : List Chunk) : Decidable (WFchunks cs) := by
  unfold WFchunks; infer_instance

/-- Number of non-Empty cells of a grid. -/
def cellCount (g : CellGrid) : Nat :=
  g.cells.countP fun cell => cell.material != Material.Empty

/-- Total number of non-Empty cells over the whole chunk array. -/
def totalCount (cs : List Chunk) : Nat :=
  (cs.map fun c => cellCount c.grid).sum

/-- Color channel r of a CellColor, matching the texture byte layout. -/
def colorByte (col : CellColor) (r : Nat) : Nat :=
  match r with
  | 0 => col.red
  | 1 => col.green
  | 2 => col.blue
  | _ => col.alpha

/-- Number the predicate assigns to one cell. -/
def cw (c : Cell) : Nat := if c.material != Material.Empty then 1 else 0

/-- Modelled from the spec's words for the sweep order: visit the rows in
the column direction (reversed when colRev), and within each row visit the
x coordinates in the row direction (reversed when rowRev). -/
def specSweepOrder (rowRev colRev : Bool) : List GridPos :=
  (if colRev then ((List.range 32).map fun n => (n : Int)).reverse
   else (List.range 32).map fun n => (n : Int)).flatMap fun y =>
    (if rowRev then ((List.range 32).map fun n => (n : Int)).reverse
     else (List.range 32).map fun n => (n : Int)).map fun x => (x, y)

/-- The sweep order exactly as the claim words it: the row direction (x)
reversed exactly when the tick is even, the column direction (y) reversed
exactly when the tick is divisible by 4. -/
def claimedVisitOrder (tick : Nat) : List GridPos :=
  specSweepOrder (tick % 2 == 0) (tick % 4 == 0)

/-- The neighbor position of chunk i of cs in halo direction d. -/
def neighPos (cs : List Chunk) (i d : Nat) : Int × Int :=
  ((lget cs i default).position.1 + (lget HALO_DIRECTIONS d (0, 0)).1,
   (lget cs i default).position.2 + (lget HALO_DIRECTIONS d (0, 0)).2)

/-- The halo entry that setup is expected to produce for chunk i and
direction d, given that the halo entry starts out as None. -/
def expectedHalo (cs : List Chunk) (i d : Nat) : Option Nat :=
  if (lget cs (Simulation.get_idx_in_chunks (neighPos cs i d)) default).position =
      neighPos cs i d
  then some (Simulation.get_idx_in_chunks (neighPos cs i d)) else none

/-- A single chunk holding one Sand cell at local (0, 31), with no halo
links, used as a witness state. -/
def loneSandChunk : Chunk :=
  { position := (0, 0),
    grid := { cells := lset (List.replicate 1024 (Cell.new .Empty)) 992 (Cell.new .Sand),
              texture_data := List.replicate 4096 0 },
    halo := List.replicate 8 none }

/-- Invariant before the bottom-row Sand cell of the cross-chunk-fall
scenario is visited. -/
def c3Pre (iA iB tick : Nat) (x : Int) (s0 b0 : Cell) (n : Nat) (acc : List Chunk) : Prop :=
  WFchunks acc ∧ acc.length = n ∧
  lget (lget acc iA default).halo 6 none = some iB ∧
  cellAt acc iA (CellGrid.grid_idx (x, 31)) = s0 ∧
  cellAt acc iB (CellGrid.grid_idx (x, 0)) = b0 ∧
  ((cellAt acc iA (CellGrid.grid_idx (x, 30))).material ≠ Material.Sand ∨
    (cellAt acc iA (CellGrid.grid_idx (x, 30))).last_processed_in_tick = tick)

/-- Invariant after the bottom-row Sand cell of the cross-chunk-fall
scenario has moved south. -/
def c3Post (iA iB tick : Nat) (x : Int) (s0 b0 : Cell) (n : Nat) (acc : List Chunk) : Prop :=
  WFchunks acc ∧ acc.length = n ∧
  lget (lget acc iA default).halo 6 none = some iB ∧
  cellAt acc iA (CellGrid.grid_idx (x, 31)) = b0 ∧
  cellAt acc iB (CellGrid.grid_idx (x, 0)) = { s0 with last_processed_in_tick := tick } ∧
  (∀ r, r < 4 → texAt acc iA (4 * CellGrid.grid_idx (x, 31) + r) =
    colorByte b0.material.color r) ∧
  (∀ r, r < 4 → texAt acc iB (4 * CellGrid.grid_idx (x, 0) + r) =
    colorByte s0.material.color r) ∧
  ((cellAt acc iA (CellGrid.grid_idx (x, 30))).material ≠ Material.Sand ∨
    (cellAt acc iA (CellGrid.grid_idx (x, 30))).last_processed_in_tick = tick)

def c3WitA : Chunk :=
  { position := (0, 0),
    grid := { cells := lset (List.replicate 1024 (Cell.new .Empty)) 992 (Cell.new .Sand),
              texture_data := List.replicate 4096 0 },
    halo := lset (List.replicate 8 none) 6 (some 1) }

def c3WitB : Chunk :=
  { position := (0, 1),
    grid := { cells := List.replicate 1024 (Cell.new .Empty),
              texture_data := List.replicate 4096 0 },
    halo := List.replicate 8 none }

def c3CexA : Chunk :=
  { position := (0, 0),
    grid := { cells := lset (lset (List.replicate 1024 (Cell.new .Empty)) 960
                (Cell.new .Sand)) 992 (Cell.new .Sand),
              texture_data := List.replicate 4096 0 },
    halo := lset (List.replicate 8 none) 6 (some 1) }

def c3Tail31 : List GridPos := [(1, 31), (2, 31), (3, 31), (4, 31), (5, 31), (6, 31), (7, 31), (8, 31), (9, 31), (10, 31), (11, 31), (12, 31), (13, 31), (14, 31), (15, 31), (16, 31), (17, 31), (18, 31), (19, 31), (20, 31), (21, 31), (22, 31), (23, 31), (24, 31), (25, 31), (26, 31), (27, 31), (28, 31), (29, 31), (30, 31), (31, 31)]

/-- The texture buffer of every chunk mirrors the cell colors
(texture_data[4i..4i+4] = cells[i].color), and every cell's color field
equals its material's color. -/
def syncedCC (cs : List Chunk) : Prop :=
  ∀ k, k < cs.length →
    (∀ i, i < 1024 → ∀ r, r < 4 →
      texAt cs k (i * 4 + r) = colorByte (cellAt cs k i).color r) ∧
    ∀ i, (cellAt cs k i).color = (cellAt cs k i).material.color

/-! ### Basic facts about the list read and write primitives -/

theorem length_lset (l : List α) (n : Nat) (b : α) : (lset l n b).length = l.length := by
  induction l generalizing n with
  | nil => rfl
  | cons a l ih =>
    cases n with
    | zero => rfl
    | succ n => simp [lset, ih]

theorem lget_lset_eq (l : List α) (n : Nat) (b d : α) (h : n < l.length) :
    lget (lset l n b) n d = b := by
  induction l generalizing n with
  | nil => simp at h
  | cons a l ih =>
    cases n with
    | zero => rfl
    | succ n => exact ih n (by simpa using h)

theorem lget_lset_ne (l : List α) (m n : Nat) (b d : α) (h : m ≠ n) :
    lget (lset l m b) n d = lget l n d := by
  induction l generalizing m n with
  | nil => rfl
  | cons a l ih =>
    cases m with
    | zero =>
      cases n with
      | zero => exact absurd rfl h
      | succ n => rfl
    | succ m =>
      cases n with
      | zero => rfl
      | succ n => exact ih m n (fun hc => h (by omega))

theorem lset_oob (l : List α) (n : Nat) (b : α) (h : l.length ≤ n) : lset l n b = l := by
  induction l generalizing n with
  | nil => rfl
  | cons a l ih =>
    cases n with
    | zero => simp at h
    | succ n => simp [lset, ih n (by simpa using h)]

theorem lget_oob (l : List α) (n : Nat) (d : α) (h : l.length ≤ n) : lget l n d = d := by
  induction l generalizing n with
  | nil => rfl
  | cons a l ih =>
    cases n with
    | zero => simp at h
    | succ n => exact ih n (by simpa using h)

theorem lget_replicate (n i : Nat) (a d : α) (h : i < n) :
    lget (List.replicate n a) i d = a := by
  induction n generalizing i with
  | zero => omega
  | succ n ih =>
    cases i with
    | zero => rfl
    | succ i => exact ih i (by omega)

theorem lget_mem (l : List α) (n : Nat) (d : α) (h : n < l.length) : lget l n d ∈ l := by
  induction l generalizing n with
  | nil => simp at h
  | cons a l ih =>
    cases n with
    | zero => exact List.mem_cons_self a l
    | succ n => exact List.mem_cons_of_mem a (ih n (by simpa using h))

theorem mem_lset (l : List α) (n : Nat) (b c : α) (h : c ∈ lset l n b) :
    c = b ∨ c ∈ l := by
  induction l generalizing n with
  | nil => simp [lset] at h
  | cons a l ih =>
    cases n with
    | zero =>
      rcases List.mem_cons.mp h with h | h
      · exact Or.inl h
      · exact Or.inr (List.mem_cons_of_mem a h)
    | succ n =>
      rcases List.mem_cons.mp h with h | h
      · exact Or.inr (h ▸ List.mem_cons_self a l)
      · rcases ih n h with h | h
        · exact Or.inl h
        · exact Or.inr (List.mem_cons_of_mem a h)

theorem lset_lset_same (l : List α) (n : Nat) (a b : α) :
    lset (lset l n a) n b = lset l n b := by
  induction l generalizing n with
  | nil => rfl
  | cons x l ih =>
    cases n with
    | zero => rfl
    | succ n => simp [lset, ih]

theorem countP_lset (l : List α) (p : α → Bool) (n : Nat) (b d : α) (h : n < l.length) :
    (lset l n b).countP p + (if p (lget l n d) then 1 else 0) =
      l.countP p + (if p b then 1 else 0) := by
  induction l generalizing n with
  | nil => simp at h
  | cons a l ih =>
    cases n with
    | zero =>
      show (b :: l).countP p + _ = _
      simp only [List.countP_cons, lget]
      by_cases hb : p b <;> by_cases ha : p a <;> simp [hb, ha]
    | succ n =>
      show (a :: lset l n b).countP p + _ = _
      simp only [List.countP_cons, lget, lset]
      have := ih n (by simpa using h)
      by_cases ha : p a <;> simp [ha] <;> omega

/-! ### Index arithmetic for local grid positions -/

theorem grid_idx_lt (p : GridPos) (hp : inRange p) : CellGrid.grid_idx p < 1024 := by
  obtain ⟨h1, h2, h3, h4⟩ := hp
  unfold CellGrid.grid_idx
  omega

theorem grid_idx_inj (p q : GridPos) (hp : inRange p) (hq : inRange q)
    (h : CellGrid.grid_idx p = CellGrid.grid_idx q) : p = q := by
  obtain ⟨h1, h2, h3, h4⟩ := hp
  obtain ⟨g1, g2, g3, g4⟩ := hq
  unfold CellGrid.grid_idx at h
  have hx : p.1 = q.1 := by omega
  have hy : p.2 = q.2 := by omega
  exact Prod.ext hx hy

theorem inRange_belowWrap (p : GridPos) : inRange (belowWrap p) := by
  unfold belowWrap inRange
  refine ⟨Int.emod_nonneg _ (by norm_num), Int.emod_lt_of_pos _ (by norm_num),
    Int.emod_nonneg _ (by norm_num), Int.emod_lt_of_pos _ (by norm_num)⟩

theorem belowWrap_of_lt (p : GridPos) (hp : inRange p) (h31 : p.2 < 31) :
    belowWrap p = (p.1, p.2 + 1) := by
  obtain ⟨h1, h2, h3, h4⟩ := hp
  unfold belowWrap
  have hx : p.1.emod 32 = p.1 := show p.1 % 32 = p.1 by omega
  have hy : (p.2 + 1).emod 32 = p.2 + 1 := show (p.2 + 1) % 32 = p.2 + 1 by omega
  rw [hx, hy]

theorem belowWrap_of_eq (p : GridPos) (hp : inRange p) (h31 : p.2 = 31) :
    belowWrap p = (p.1, 0) := by
  obtain ⟨h1, h2, h3, h4⟩ := hp
  unfold belowWrap
  have hx : p.1.emod 32 = p.1 := show p.1 % 32 = p.1 by omega
  have hy : (p.2 + 1).emod 32 = 0 := show (p.2 + 1) % 32 = 0 by omega
  rw [hx, hy]

/-! ### Effects of the chunk-array cell and color writes -/

theorem length_writeCell (cs : List Chunk) (k i : Nat) (c : Cell) :
    (writeCell cs k i c).length = cs.length := length_lset ..

theorem length_writeColor (cs : List Chunk) (k i : Nat) (col : CellColor) :
    (writeColor cs k i col).length = cs.length := length_lset ..

theorem lget_writeCell_ne (cs : List Chunk) (k m i : Nat) (c : Cell) (d : Chunk) (h : k ≠ m) :
    lget (writeCell cs k i c) m d = lget cs m d := lget_lset_ne _ _ _ _ _ h

theorem lget_writeColor_ne (cs : List Chunk) (k m i : Nat) (col : CellColor) (d : Chunk)
    (h : k ≠ m) : lget (writeColor cs k i col) m d = lget cs m d := lget_lset_ne _ _ _ _ _ h

theorem lget_writeCell_self (cs : List Chunk) (k i : Nat) (c : Cell) (hk : k < cs.length) :
    lget (writeCell cs k i c) k default =
      { lget cs k default with grid :=
          { (lget cs k default).grid with
              cells := lset (lget cs k default).grid.cells i c } } :=
  lget_lset_eq _ _ _ _ hk

theorem lget_writeColor_self (cs : List Chunk) (k i : Nat) (col : CellColor)
    (hk : k < cs.length) :
    lget (writeColor cs k i col) k default =
      { lget cs k default with grid := (lget cs k default).grid.set_color_at_grididx i col } :=
  lget_lset_eq _ _ _ _ hk

theorem position_writeCell (cs : List Chunk) (k m i : Nat) (c : Cell) :
    (lget (writeCell cs k i c) m default).position = (lget cs m default).position := by
  by_cases hk : k < cs.length
  · by_cases hkm : k = m
    · subst hkm; rw [lget_writeCell_self cs k i c hk]
    · rw [lget_writeCell_ne cs k m i c default hkm]
  · unfold writeCell
    rw [lset_oob _ _ _ (by omega)]

theorem halo_writeCell (cs : List Chunk) (k m i : Nat) (c : Cell) :
    (lget (writeCell cs k i c) m default).halo = (lget cs m default).halo := by
  by_cases hk : k < cs.length
  · by_cases hkm : k = m
    · subst hkm; rw [lget_writeCell_self cs k i c hk]
    · rw [lget_writeCell_ne cs k m i c default hkm]
  · unfold writeCell
    rw [lset_oob _ _ _ (by omega)]

theorem halo_writeColor (cs : List Chunk) (k m i : Nat) (col : CellColor) :
    (lget (writeColor cs k i col) m default).halo = (lget cs m default).halo := by
  by_cases hk : k < cs.length
  · by_cases hkm : k = m
    · subst hkm; rw [lget_writeColor_self cs k i col hk]
    · rw [lget_writeColor_ne cs k m i col default hkm]
  · unfold writeColor
    rw [lset_oob _ _ _ (by omega)]

theorem position_writeColor (cs : List Chunk) (k m i : Nat) (col : CellColor) :
    (lget (writeColor cs k i col) m default).position = (lget cs m default).position := by
  by_cases hk : k < cs.length
  · by_cases hkm : k = m
    · subst hkm; rw [lget_writeColor_self cs k i col hk]
    · rw [lget_writeColor_ne cs k m i col default hkm]
  · unfold writeColor
    rw [lset_oob _ _ _ (by omega)]

theorem cellAt_writeCell_self (cs : List Chunk) (k i : Nat) (c : Cell) (hk : k < cs.length)
    (hi : i < (lget cs k default).grid.cells.length) :
    cellAt (writeCell cs k i c) k i = c := by
  unfold cellAt
  rw [lget_writeCell_self cs k i c hk]
  exact lget_lset_eq _ _ _ _ hi

theorem cellAt_writeCell_ne (cs : List Chunk) (k m i j : Nat) (c : Cell)
    (h : k ≠ m ∨ i ≠ j) : cellAt (writeCell cs k i c) m j = cellAt cs m j := by
  unfold cellAt
  by_cases hk : k < cs.length
  · by_cases hkm : k = m
    · subst hkm
      rw [lget_writeCell_self cs k i c hk]
      have hij : i ≠ j := h.resolve_left (fun hc => hc rfl)
      exact lget_lset_ne _ _ _ _ _ hij
    · rw [lget_writeCell_ne cs k m i c default hkm]
  · unfold writeCell
    rw [lset_oob _ _ _ (by omega)]

theorem cellAt_writeColor (cs : List Chunk) (k m i j : Nat) (col : CellColor) :
    cellAt (writeColor cs k i col) m j = cellAt cs m j := by
  unfold cellAt
  by_cases hk : k < cs.length
  · by_cases hkm : k = m
    · subst hkm
      rw [lget_writeColor_self cs k i col hk]
      rfl
    · rw [lget_writeColor_ne cs k m i col default hkm]
  · unfold writeColor
    rw [lset_oob _ _ _ (by omega)]

theorem texAt_writeCell (cs : List Chunk) (k m i j : Nat) (c : Cell) :
    texAt (writeCell cs k i c) m j = texAt cs m j := by
  unfold texAt
  by_cases hk : k < cs.length
  · by_cases hkm : k = m
    · subst hkm
      rw [lget_writeCell_self cs k i c hk]
    · rw [lget_writeCell_ne cs k m i c default hkm]
  · unfold writeCell
    rw [lset_oob _ _ _ (by omega)]


theorem cells_length_writeCell (cs : List Chunk) (k m i : Nat) (c : Cell) :
    (lget (writeCell cs k i c) m default).grid.cells.length =
      (lget cs m default).grid.cells.length := by
  by_cases hk : k < cs.length
  · by_cases hkm : k = m
    · subst hkm
      rw [lget_writeCell_self cs k i c hk]
      exact length_lset ..
    · rw [lget_writeCell_ne cs k m i c default hkm]
  · unfold writeCell
    rw [lset_oob _ _ _ (by omega)]

theorem tex_length_writeColor (cs : List Chunk) (k m i : Nat) (col : CellColor) :
    (lget (writeColor cs k i col) m default).grid.texture_data.length =
      (lget cs m default).grid.texture_data.length := by
  by_cases hk : k < cs.length
  · by_cases hkm : k = m
    · subst hkm
      rw [lget_writeColor_self cs k i col hk]
      show (lset (lset (lset (lset _ _ _) _ _) _ _) _ _).length = _
      simp [length_lset]
    · rw [lget_writeColor_ne cs k m i col default hkm]
  · unfold writeColor
    rw [lset_oob _ _ _ (by omega)]

theorem texAt_writeColor_self (cs : List Chunk) (k i r : Nat) (col : CellColor)
    (hk : k < cs.length) (hr : r < 4)
    (hlen : i * 4 + 3 < (lget cs k default).grid.texture_data.length) :
    texAt (writeColor cs k i col) k (i * 4 + r) = colorByte col r := by
  unfold texAt
  rw [lget_writeColor_self cs k i col hk]
  show lget (lset (lset (lset (lset _ (i * 4) col.red) (i * 4 + 1) col.green)
    (i * 4 + 2) col.blue) (i * 4 + 3) col.alpha) (i * 4 + r) 0 = _
  interval_cases r
  · rw [lget_lset_ne _ _ _ _ _ (by omega), lget_lset_ne _ _ _ _ _ (by omega),
      lget_lset_ne _ _ _ _ _ (by omega)]
    show lget (lset _ (i * 4) _) (i * 4 + 0) 0 = _
    rw [Nat.add_zero, lget_lset_eq _ _ _ _ (by omega)]
    rfl
  · rw [lget_lset_ne _ _ _ _ _ (by omega), lget_lset_ne _ _ _ _ _ (by omega),
      lget_lset_eq _ _ _ _ (by simp [length_lset]; omega)]
    rfl
  · rw [lget_lset_ne _ _ _ _ _ (by omega),
      lget_lset_eq _ _ _ _ (by simp [length_lset]; omega)]
    rfl
  · rw [lget_lset_eq _ _ _ _ (by simp [length_lset]; omega)]
    rfl

theorem texAt_writeColor_ne (cs : List Chunk) (k m i j : Nat) (col : CellColor)
    (h : k ≠ m ∨ ∀ r, r < 4 → j ≠ i * 4 + r) :
    texAt (writeColor cs k i col) m j = texAt cs m j := by
  unfold texAt
  by_cases hk : k < cs.length
  · by_cases hkm : k = m
    · subst hkm
      rw [lget_writeColor_self cs k i col hk]
      have hj : ∀ r, r < 4 → j ≠ i * 4 + r := h.resolve_left (fun hc => hc rfl)
      show lget (lset (lset (lset (lset _ (i * 4) col.red) (i * 4 + 1) col.green)
        (i * 4 + 2) col.blue) (i * 4 + 3) col.alpha) j 0 = _
      rw [lget_lset_ne _ _ _ _ _ (by have := hj 3 (by omega); omega),
        lget_lset_ne _ _ _ _ _ (by have := hj 2 (by omega); omega),
        lget_lset_ne _ _ _ _ _ (by have := hj 1 (by omega); omega),
        lget_lset_ne _ _ _ _ _ (by have := hj 0 (by omega); omega)]
    · rw [lget_writeColor_ne cs k m i col default hkm]
  · unfold writeColor
    rw [lset_oob _ _ _ (by omega)]

/-! ### Well-formedness is preserved by the write primitives -/

theorem WF_writeCell (cs : List Chunk) (k i : Nat) (c : Cell) (hwf : WFchunks cs) :
    WFchunks (writeCell cs k i c) := by
  intro ch hch
  rw [length_writeCell]
  by_cases hk : k < cs.length
  · rcases mem_lset _ _ _ _ hch with h | h
    · subst h
      obtain ⟨h1, h2, h3, h4⟩ := hwf (lget cs k default) (lget_mem cs k default hk)
      exact ⟨by simpa [length_lset] using h1, h2, h3, h4⟩
    · exact hwf ch h
  · unfold writeCell at hch
    rw [lset_oob _ _ _ (by omega)] at hch
    exact hwf ch hch

theorem WF_writeColor (cs : List Chunk) (k i : Nat) (col : CellColor) (hwf : WFchunks cs) :
    WFchunks (writeColor cs k i col) := by
  intro ch hch
  rw [length_writeColor]
  by_cases hk : k < cs.length
  · rcases mem_lset _ _ _ _ hch with h | h
    · subst h
      obtain ⟨h1, h2, h3, h4⟩ := hwf (lget cs k default) (lget_mem cs k default hk)
      refine ⟨h1, ?_, h3, h4⟩
      show (lset (lset (lset (lset _ _ _) _ _) _ _) _ _).length = _
      simpa [length_lset] using h2
    · exact hwf ch h
  · unfold writeColor at hch
    rw [lset_oob _ _ _ (by omega)] at hch
    exact hwf ch hch

/-- The grid of a chunk fetched out of bounds is the empty placeholder grid,
so its cells are all Empty. -/
theorem cellAt_oob_material (cs : List Chunk) (k i : Nat) (hk : ¬ k < cs.length)
    (hi : i < 1024) : (cellAt cs k i).material = Material.Empty := by
  unfold cellAt
  rw [lget_oob cs k default (by omega)]
  show (lget (List.replicate NUM_CELLS_IN_CHUNK (Cell.new .Empty)) i default).material = _
  rw [lget_replicate _ _ _ _ (by unfold NUM_CELLS_IN_CHUNK; omega)]
  rfl

/-! ### Non-Empty cell counting -/

theorem totalCount_cons (c : Chunk) (cs : List Chunk) :
    totalCount (c :: cs) = cellCount c.grid + totalCount cs := by
  simp [totalCount]

theorem totalCount_lset (cs : List Chunk) (k : Nat) (c : Chunk) (hk : k < cs.length) :
    totalCount (lset cs k c) + cellCount (lget cs k default).grid =
      totalCount cs + cellCount c.grid := by
  induction cs generalizing k with
  | nil => simp at hk
  | cons a cs ih =>
    cases k with
    | zero =>
      show totalCount (c :: cs) + _ = _
      rw [totalCount_cons, totalCount_cons]
      show _ + cellCount a.grid = _
      omega
    | succ k =>
      show totalCount (a :: lset cs k c) + _ = _
      rw [totalCount_cons, totalCount_cons]
      have := ih k (by simpa using hk)
      show _ + cellCount (lget cs k default).grid = _
      omega

theorem totalCount_writeColor (cs : List Chunk) (k i : Nat) (col : CellColor) :
    totalCount (writeColor cs k i col) = totalCount cs := by
  by_cases hk : k < cs.length
  · have hgoal : writeColor cs k i col = lset cs k
        { lget cs k default with
            grid := (lget cs k default).grid.set_color_at_grididx i col } := rfl
    rw [hgoal]
    have h := totalCount_lset cs k
      { lget cs k default with grid := (lget cs k default).grid.set_color_at_grididx i col } hk
    have hcc : cellCount ({ lget cs k default with
        grid := (lget cs k default).grid.set_color_at_grididx i col } : Chunk).grid =
        cellCount (lget cs k default).grid := rfl
    omega
  · unfold writeColor
    rw [lset_oob _ _ _ (by omega)]


theorem cellCount_lset (g : CellGrid) (i : Nat) (c : Cell)
    (hi : i < g.cells.length) :
    ({ g with cells := lset g.cells i c } : CellGrid).cells.countP
        (fun cell => cell.material != Material.Empty) + cw (lget g.cells i default) =
      cellCount g + cw c := by
  unfold cw cellCount
  exact countP_lset g.cells _ i c default hi

theorem totalCount_writeCell (cs : List Chunk) (k i : Nat) (c : Cell)
    (hk : k < cs.length) (hi : i < (lget cs k default).grid.cells.length) :
    totalCount (writeCell cs k i c) + cw (cellAt cs k i) = totalCount cs + cw c := by
  have hgoal : writeCell cs k i c = lset cs k
      { lget cs k default with grid :=
          { (lget cs k default).grid with
              cells := lset (lget cs k default).grid.cells i c } } := rfl
  rw [hgoal]
  unfold cellAt
  have h := totalCount_lset cs k
    { lget cs k default with grid :=
        { (lget cs k default).grid with cells := lset (lget cs k default).grid.cells i c } } hk
  have h2 : cellCount ({ lget cs k default with grid :=
      { (lget cs k default).grid with
          cells := lset (lget cs k default).grid.cells i c } } : Chunk).grid +
      cw (lget (lget cs k default).grid.cells i default) =
      cellCount (lget cs k default).grid + cw c := by
    unfold cellCount cw
    exact countP_lset _ _ i c default hi
  omega

/-! ### The two target-grid resolutions that Chunk::update can reach -/

theorem get_cell_cellAt (cs : List Chunk) (k : Nat) (p : GridPos) :
    (lget cs k default).grid.get_cell p = cellAt cs k (CellGrid.grid_idx p) := rfl

theorem get_grid_from_dir_own (c : Chunk) (ci : Nat) :
    c.get_grid_from_dir ci ((0 : Int), (0 : Int)) = some ci := rfl

theorem get_grid_from_dir_south (c : Chunk) (ci : Nat) :
    c.get_grid_from_dir ci ((0 : Int), (1 : Int)) = lget c.halo 6 none := by
  show (if ((0 : Int), (1 : Int)) = ((0 : Int), (0 : Int)) then some ci else _) = _
  rw [if_neg (by decide)]
  show (match Chunk.scanDirIdx ((0 : Int), (1 : Int)) HALO_DIRECTIONS 0 with
    | some i => lget c.halo i none
    | none => none) = _
  have hscan : Chunk.scanDirIdx ((0 : Int), (1 : Int)) HALO_DIRECTIONS 0 = some 6 := by decide
  rw [hscan]

theorem writeCell_collapse (cs : List Chunk) (k i : Nat) (a b : Cell) (hk : k < cs.length) :
    writeCell (writeCell cs k i a) k i b = writeCell cs k i b := by
  have h1 : writeCell cs k i a = lset cs k
      { lget cs k default with grid :=
          { (lget cs k default).grid with cells := lset (lget cs k default).grid.cells i a } } :=
    rfl
  have h2 : lget (writeCell cs k i a) k default =
      { lget cs k default with grid :=
          { (lget cs k default).grid with cells := lset (lget cs k default).grid.cells i a } } :=
    lget_writeCell_self cs k i a hk
  show lset (writeCell cs k i a) k
      { lget (writeCell cs k i a) k default with grid :=
          { (lget (writeCell cs k i a) k default).grid with
              cells := lset (lget (writeCell cs k i a) k default).grid.cells i b } } = _
  rw [h2, h1, lset_lset_same]
  show lset cs k _ = lset cs k _
  rw [lset_lset_same]

/-- The master case analysis of one iteration of the Chunk::update loop: the
step either leaves the chunk array unchanged, or the visited cell is an
unstamped Sand cell whose below-target resolves (inside the own grid for
rows above the last one, through the south halo link for the last row) to an
Empty cell, and the step equals the stamp-carrying two-slot swap followed by
the two color writes. -/
theorem updateCell_cases (cs : List Chunk) (ci tick : Nat) (p : GridPos)
    (hwf : WFchunks cs) (hp : inRange p) :
    Chunk.updateCell cs ci tick p = cs ∨
    ((cellAt cs ci (CellGrid.grid_idx p)).material = Material.Sand ∧
     (cellAt cs ci (CellGrid.grid_idx p)).last_processed_in_tick ≠ tick ∧
     ci < cs.length ∧
     ∃ cj, cj < cs.length ∧
       ((p.2 < 31 ∧ cj = ci) ∨
        (p.2 = 31 ∧ lget (lget cs ci default).halo 6 none = some cj)) ∧
       (cellAt cs cj (CellGrid.grid_idx (belowWrap p))).material = Material.Empty ∧
       Chunk.updateCell cs ci tick p =
         writeColor (writeColor (writeCell (writeCell cs ci (CellGrid.grid_idx p)
               (cellAt cs cj (CellGrid.grid_idx (belowWrap p))))
             cj (CellGrid.grid_idx (belowWrap p))
             { cellAt cs ci (CellGrid.grid_idx p) with last_processed_in_tick := tick })
           ci (CellGrid.grid_idx p)
           (cellAt cs cj (CellGrid.grid_idx (belowWrap p))).material.color)
           cj (CellGrid.grid_idx (belowWrap p))
           (cellAt cs ci (CellGrid.grid_idx p)).material.color) := by
  have hgq : CellGrid.grid_idx p < 1024 := grid_idx_lt p hp
  have hbq : CellGrid.grid_idx (belowWrap p) < 1024 := grid_idx_lt _ (inRange_belowWrap p)
  obtain ⟨hp1, hp2, hp3, hp4⟩ := hp
  by_cases h1 : (cellAt cs ci (CellGrid.grid_idx p)).last_processed_in_tick = tick
  · left
    simp only [Chunk.updateCell, get_cell_cellAt]
    rw [if_pos h1]
  by_cases h2 : (cellAt cs ci (CellGrid.grid_idx p)).material = Material.Sand
  case neg =>
    left
    simp only [Chunk.updateCell, get_cell_cellAt]
    rw [if_neg h1, if_neg h2]
  -- the visited cell is unstamped Sand: the target grid is resolved
  have hci : ci < cs.length := by
    by_contra hci
    rw [cellAt_oob_material cs ci _ hci hgq] at h2
    exact absurd h2 (by decide)
  have hlen : (lget cs ci default).grid.cells.length = 1024 := by
    have := (hwf (lget cs ci default) (lget_mem cs ci default hci)).1
    simpa [NUM_CELLS_IN_CHUNK] using this
  have hxge : ¬ (32 ≤ p.1) := by omega
  have hxlt : ¬ (p.1 < 0) := by omega
  have hyneg : ¬ (p.2 + 1 < 0) := by omega
  by_cases h31 : p.2 = 31
  · -- bottom row: resolve through halo slot 6 (direction (0, 1))
    have hyge : (32 : Int) ≤ p.2 + 1 := by omega
    have hbw : belowWrap p = (p.1, 0) := belowWrap_of_eq p ⟨hp1, hp2, hp3, hp4⟩ h31
    rcases hh : lget (lget cs ci default).halo 6 none with _ | cj
    · left
      simp only [Chunk.updateCell, get_cell_cellAt]
      rw [if_neg h1, if_pos h2]
      simp only [if_neg hxge, if_neg hxlt, if_pos hyge, if_neg hyneg, sub_zero]
      rw [get_grid_from_dir_south, hh]
    · -- the halo link is present: the swap happens iff the target is Empty
      by_cases h3 : (cellAt cs cj (CellGrid.grid_idx (belowWrap p))).material = Material.Empty
      · right
        refine ⟨h2, h1, hci, ⟨cj, ?_, Or.inr ⟨h31, rfl⟩, h3, ?_⟩⟩
        · have hmem : some cj ∈ (lget cs ci default).halo := by
            have hh8 : (lget cs ci default).halo.length = 8 :=
              (hwf (lget cs ci default) (lget_mem cs ci default hci)).2.2.1
            have := lget_mem (lget cs ci default).halo 6 none (by omega)
            rw [hh] at this
            exact this
          have := (hwf (lget cs ci default) (lget_mem cs ci default hci)).2.2.2 _ hmem
          exact this
        · simp only [Chunk.updateCell, get_cell_cellAt]
          rw [if_neg h1, if_pos h2]
          simp only [if_neg hxge, if_neg hxlt, if_pos hyge, if_neg hyneg, sub_zero]
          rw [get_grid_from_dir_south, hh]
          have hbp : ((p.1.emod 32 : Int), ((p.2 + 1).emod 32 : Int)) = belowWrap p := rfl
          simp only [hbp]
          rw [if_pos h3]
          have hswap1 : cellAt (writeCell cs ci (CellGrid.grid_idx p)
              { cellAt cs ci (CellGrid.grid_idx p) with last_processed_in_tick := tick })
              ci (CellGrid.grid_idx p) =
              { cellAt cs ci (CellGrid.grid_idx p) with last_processed_in_tick := tick } :=
            cellAt_writeCell_self cs ci _ _ hci (by omega)
          have hne : ci ≠ cj ∨ CellGrid.grid_idx p ≠ CellGrid.grid_idx (belowWrap p) := by
            by_cases hcij : ci = cj
            · right
              rw [hbw]
              unfold CellGrid.grid_idx
              have : p.2.toNat = 31 := by omega
              simp only [this]
              omega
            · exact Or.inl hcij
          have hswap2 : cellAt (writeCell cs ci (CellGrid.grid_idx p)
              { cellAt cs ci (CellGrid.grid_idx p) with last_processed_in_tick := tick })
              cj (CellGrid.grid_idx (belowWrap p)) =
              cellAt cs cj (CellGrid.grid_idx (belowWrap p)) :=
            cellAt_writeCell_ne cs ci cj _ _ _ hne
          rw [hswap1, hswap2]
          rw [writeCell_collapse cs ci (CellGrid.grid_idx p) _ _ hci]
      · left
        simp only [Chunk.updateCell, get_cell_cellAt]
        rw [if_neg h1, if_pos h2]
        simp only [if_neg hxge, if_neg hxlt, if_pos hyge, if_neg hyneg, sub_zero]
        rw [get_grid_from_dir_south, hh]
        have hbp : ((p.1.emod 32 : Int), ((p.2 + 1).emod 32 : Int)) = belowWrap p := rfl
        simp only [hbp]
        rw [if_neg h3]
  · -- interior row: the target is the own grid
    have h31lt : p.2 < 31 := by omega
    have hylt : ¬ (32 : Int) ≤ p.2 + 1 := by omega
    have hbw : belowWrap p = (p.1, p.2 + 1) := belowWrap_of_lt p ⟨hp1, hp2, hp3, hp4⟩ h31lt
    by_cases h3 : (cellAt cs ci (CellGrid.grid_idx (belowWrap p))).material = Material.Empty
    · right
      refine ⟨h2, h1, hci, ci, hci, Or.inl ⟨h31lt, rfl⟩, h3, ?_⟩
      simp only [Chunk.updateCell, get_cell_cellAt]
      rw [if_neg h1, if_pos h2]
      simp only [if_neg hxge, if_neg hxlt, if_neg hylt, if_neg hyneg, sub_zero]
      rw [get_grid_from_dir_own]
      have hbp : ((p.1.emod 32 : Int), ((p.2 + 1).emod 32 : Int)) = belowWrap p := rfl
      simp only [hbp]
      rw [if_pos h3]
      have hswap1 : cellAt (writeCell cs ci (CellGrid.grid_idx p)
          { cellAt cs ci (CellGrid.grid_idx p) with last_processed_in_tick := tick })
          ci (CellGrid.grid_idx p) =
          { cellAt cs ci (CellGrid.grid_idx p) with last_processed_in_tick := tick } :=
        cellAt_writeCell_self cs ci _ _ hci (by omega)
      have hne : ci ≠ ci ∨ CellGrid.grid_idx p ≠ CellGrid.grid_idx (belowWrap p) := by
        right
        intro hc
        have := grid_idx_inj p (belowWrap p) ⟨hp1, hp2, hp3, hp4⟩ (inRange_belowWrap p) hc
        rw [hbw] at this
        have h6 := congrArg Prod.snd this
        simp at h6
      have hswap2 : cellAt (writeCell cs ci (CellGrid.grid_idx p)
          { cellAt cs ci (CellGrid.grid_idx p) with last_processed_in_tick := tick })
          ci (CellGrid.grid_idx (belowWrap p)) =
          cellAt cs ci (CellGrid.grid_idx (belowWrap p)) :=
        cellAt_writeCell_ne cs ci ci _ _ _ hne
      rw [hswap1, hswap2]
      rw [writeCell_collapse cs ci (CellGrid.grid_idx p) _ _ hci]
    · left
      simp only [Chunk.updateCell, get_cell_cellAt]
      rw [if_neg h1, if_pos h2]
      simp only [if_neg hxge, if_neg hxlt, if_neg hylt, if_neg hyneg, sub_zero]
      rw [get_grid_from_dir_own]
      have hbp : ((p.1.emod 32 : Int), ((p.2 + 1).emod 32 : Int)) = belowWrap p := rfl
      simp only [hbp]
      rw [if_neg h3]

/-! ### Generic fold preservation and the sweep order -/

theorem foldl_pres {α β : Type _} (P : α → Prop) (f : α → β → α) (L : List β)
    (hstep : ∀ x b, b ∈ L → P x → P (f x b)) :
    ∀ x, P x → P (L.foldl f x) := by
  induction L with
  | nil => intro x hx; exact hx
  | cons b L ih =>
    intro x hx
    exact ih (fun y c hc hy => hstep y c (List.mem_cons_of_mem b hc) hy) _
      (hstep x b (List.mem_cons_self b L) hx)

theorem mem_update_range (rev : Bool) (x : Int) :
    x ∈ Chunk.update_range rev ↔ 0 ≤ x ∧ x < 32 := by
  unfold Chunk.update_range
  cases rev <;> simp <;> constructor
  · rintro ⟨n, hn, rfl⟩; omega
  · intro h; exact ⟨x.toNat, by omega, by omega⟩
  · rintro ⟨n, hn, rfl⟩; omega
  · intro h; exact ⟨x.toNat, by omega, by omega⟩

theorem mem_visitOrder (tick : Nat) (p : GridPos) :
    p ∈ Chunk.visitOrder tick ↔ inRange p := by
  unfold Chunk.visitOrder inRange
  rcases p with ⟨x, y⟩
  simp only [List.mem_flatMap, List.mem_map]
  constructor
  · rintro ⟨b, hb, a, ha, heq⟩
    obtain ⟨h1, h2⟩ := (mem_update_range _ b).mp hb
    obtain ⟨h3, h4⟩ := (mem_update_range _ a).mp ha
    injection heq with hx hy
    subst hx; subst hy
    exact ⟨h3, h4, h1, h2⟩
  · rintro ⟨h1, h2, h3, h4⟩
    exact ⟨y, (mem_update_range _ y).mpr ⟨h3, h4⟩, x, (mem_update_range _ x).mpr ⟨h1, h2⟩, rfl⟩

theorem nodup_update_range (rev : Bool) : (Chunk.update_range rev).Nodup := by
  unfold Chunk.update_range
  cases rev <;> simp
  · exact (List.nodup_range 32).map (fun a b h => by omega)
  · exact (List.nodup_range 32).map (fun a b h => by omega)

theorem nodup_visitOrder (tick : Nat) : (Chunk.visitOrder tick).Nodup := by
  unfold Chunk.visitOrder
  generalize hys : Chunk.update_range (tick % 2 == 0) = ys
  have hnys : ys.Nodup := hys ▸ nodup_update_range _
  clear hys
  induction ys with
  | nil => simp
  | cons y ys ih =>
    rw [List.flatMap_cons, List.nodup_append]
    refine ⟨?_, ih hnys.of_cons, ?_⟩
    · exact (nodup_update_range _).map (fun a b h => by injection h)
    · intro q hq hq2
      obtain ⟨a, _, rfl⟩ := List.mem_map.mp hq
      obtain ⟨y2, hy2, hq2⟩ := List.mem_flatMap.mp hq2
      obtain ⟨a2, _, heq⟩ := List.mem_map.mp hq2
      injection heq with h1 h2
      subst h2
      exact (List.nodup_cons.mp hnys).1 hy2

/-! ### One step of the update preserves well-formedness and cell count -/

theorem WF_updateCell (cs : List Chunk) (ci tick : Nat) (p : GridPos)
    (hwf : WFchunks cs) (hp : inRange p) : WFchunks (Chunk.updateCell cs ci tick p) := by
  rcases updateCell_cases cs ci tick p hwf hp with h | ⟨_, _, _, cj, _, _, _, heq⟩
  · rw [h]; exact hwf
  · rw [heq]
    exact WF_writeColor _ _ _ _ (WF_writeColor _ _ _ _
      (WF_writeCell _ _ _ _ (WF_writeCell _ _ _ _ hwf)))

theorem updateCell_count (cs : List Chunk) (ci tick : Nat) (p : GridPos)
    (hwf : WFchunks cs) (hp : inRange p) :
    totalCount (Chunk.updateCell cs ci tick p) = totalCount cs := by
  rcases updateCell_cases cs ci tick p hwf hp with h | ⟨hsand, _, hci, cj, hcj, _, hempty, heq⟩
  · rw [h]
  · rw [heq, totalCount_writeColor, totalCount_writeColor]
    have hgq : CellGrid.grid_idx p < 1024 := grid_idx_lt p hp
    have hbq : CellGrid.grid_idx (belowWrap p) < 1024 := grid_idx_lt _ (inRange_belowWrap p)
    have hlen : (lget cs ci default).grid.cells.length = 1024 := by
      have := (hwf (lget cs ci default) (lget_mem cs ci default hci)).1
      simpa [NUM_CELLS_IN_CHUNK] using this
    have hlenj : (lget cs cj default).grid.cells.length = 1024 := by
      have := (hwf (lget cs cj default) (lget_mem cs cj default hcj)).1
      simpa [NUM_CELLS_IN_CHUNK] using this
    have h1 := totalCount_writeCell cs ci (CellGrid.grid_idx p)
      (cellAt cs cj (CellGrid.grid_idx (belowWrap p))) hci (by omega)
    have hcj1 : cj < (writeCell cs ci (CellGrid.grid_idx p)
        (cellAt cs cj (CellGrid.grid_idx (belowWrap p)))).length := by
      rw [length_writeCell]; exact hcj
    have hlen1 : (lget (writeCell cs ci (CellGrid.grid_idx p)
        (cellAt cs cj (CellGrid.grid_idx (belowWrap p)))) cj default).grid.cells.length = 1024 := by
      rw [cells_length_writeCell]; exact hlenj
    have h2 := totalCount_writeCell (writeCell cs ci (CellGrid.grid_idx p)
        (cellAt cs cj (CellGrid.grid_idx (belowWrap p)))) cj (CellGrid.grid_idx (belowWrap p))
      { color := (cellAt cs ci (CellGrid.grid_idx p)).color,
        material := (cellAt cs ci (CellGrid.grid_idx p)).material,
        last_processed_in_tick := tick } hcj1 (by omega)
    have hb1 : cellAt (writeCell cs ci (CellGrid.grid_idx p)
        (cellAt cs cj (CellGrid.grid_idx (belowWrap p)))) cj (CellGrid.grid_idx (belowWrap p)) =
        cellAt cs cj (CellGrid.grid_idx (belowWrap p)) := by
      by_cases hcij : ci = cj
      · subst hcij
        refine cellAt_writeCell_ne cs ci ci _ _ _ (Or.inr ?_)
        intro hc
        have h5 := grid_idx_inj p (belowWrap p) hp (inRange_belowWrap p) hc
        obtain ⟨hp1, hp2, hp3, hp4⟩ := hp
        unfold belowWrap at h5
        have h6 := congrArg Prod.snd h5
        have h7 : p.2 = (p.2 + 1) % 32 := h6
        omega
      · exact cellAt_writeCell_ne cs ci cj _ _ _ (Or.inl hcij)
    rw [hb1] at h2
    have hwa : cw { color := (cellAt cs ci (CellGrid.grid_idx p)).color,
                    material := (cellAt cs ci (CellGrid.grid_idx p)).material,
                    last_processed_in_tick := tick } = cw (cellAt cs ci (CellGrid.grid_idx p)) := rfl
    rw [hwa] at h2
    have hzeta :
        (let s := cellAt cs ci (CellGrid.grid_idx p); ({ color := s.color, material := s.material, last_processed_in_tick := tick } : Cell)) = { color := (cellAt cs ci (CellGrid.grid_idx p)).color, material := (cellAt cs ci (CellGrid.grid_idx p)).material, last_processed_in_tick := tick } :=
      rfl
    rw [hzeta]
    omega

/-! ### Conservation through the whole tick pipeline -/

theorem chunkUpdate_WF_count (cs : List Chunk) (ci tick : Nat) (hwf : WFchunks cs) :
    WFchunks (Chunk.update cs ci tick) ∧
      totalCount (Chunk.update cs ci tick) = totalCount cs := by
  unfold Chunk.update
  exact foldl_pres (fun x => WFchunks x ∧ totalCount x = totalCount cs)
    (fun acc p => Chunk.updateCell acc ci tick p) (Chunk.visitOrder tick)
    (fun x p hmem hx =>
      ⟨WF_updateCell x ci tick p hx.1 ((mem_visitOrder tick p).mp hmem),
        by rw [updateCell_count x ci tick p hx.1 ((mem_visitOrder tick p).mp hmem)]
           exact hx.2⟩)
    cs ⟨hwf, rfl⟩

theorem runPhase_WF_count (cs : List Chunk) (phase tick : Nat) (hwf : WFchunks cs) :
    WFchunks (Simulation.runPhase cs phase tick) ∧
      totalCount (Simulation.runPhase cs phase tick) = totalCount cs := by
  unfold Simulation.runPhase
  refine foldl_pres (fun x => WFchunks x ∧ totalCount x = totalCount cs)
    (fun acc ci => if (lget acc ci default).should_update phase then
      Chunk.update acc ci tick else acc) (List.range cs.length)
    (fun x ci _ hx => ?_) cs ⟨hwf, rfl⟩
  by_cases h : (lget x ci default).should_update phase
  · simp only [if_pos h]
    obtain ⟨hw, hc⟩ := chunkUpdate_WF_count x ci tick hx.1
    exact ⟨hw, by rw [hc]; exact hx.2⟩
  · simp only [if_neg h]
    exact hx

theorem runPhases_WF_count (cs : List Chunk) (tick : Nat) (hwf : WFchunks cs) :
    WFchunks (Simulation.runPhases cs tick) ∧
      totalCount (Simulation.runPhases cs tick) = totalCount cs := by
  unfold Simulation.runPhases
  refine foldl_pres (fun x => WFchunks x ∧ totalCount x = totalCount cs)
    (fun acc phase => Simulation.runPhase acc phase tick) (List.range 4)
    (fun x phase _ hx => ?_) cs ⟨hwf, rfl⟩
  obtain ⟨hw, hc⟩ := runPhase_WF_count x phase tick hx.1
  exact ⟨hw, by rw [hc]; exact hx.2⟩

/-! ### Checkerboard parity -/

theorem should_update_iff (c : Chunk) (phase : Nat) :
    c.should_update phase = true ↔
      ((c.position.1.natAbs &&& 1) ||| ((c.position.2.natAbs &&& 1) <<< 1)) = phase := by
  unfold Chunk.should_update
  exact beq_iff_eq

theorem checkerboard_arith (x y : Int) :
    ((x.natAbs &&& 1) ||| ((y.natAbs &&& 1) <<< 1)) = x.natAbs % 2 + 2 * (y.natAbs % 2) := by
  have hx : x.natAbs &&& 1 = x.natAbs % 2 := Nat.and_one_is_mod _
  have hy : y.natAbs &&& 1 = y.natAbs % 2 := Nat.and_one_is_mod _
  rw [hx, hy]
  have h2 : x.natAbs % 2 < 2 := Nat.mod_lt _ (by omega)
  have h3 : y.natAbs % 2 < 2 := Nat.mod_lt _ (by omega)
  interval_cases h : x.natAbs % 2 <;> interval_cases h2 : y.natAbs % 2 <;> decide

/-- No two chunks whose positions differ by a halo direction share a
checkerboard phase. -/
theorem halo_neighbors_distinct_phase (c1 c2 : Chunk) (d : Int × Int)
    (hd : d ∈ HALO_DIRECTIONS)
    (hx : c2.position.1 = c1.position.1 + d.1)
    (hy : c2.position.2 = c1.position.2 + d.2) (phase : Nat) :
    ¬(c1.should_update phase = true ∧ c2.should_update phase = true) := by
  rintro ⟨h1, h2⟩
  rw [should_update_iff, checkerboard_arith] at h1 h2
  have hb1 : c1.position.1.natAbs % 2 < 2 := Nat.mod_lt _ (by omega)
  have hb2 : c1.position.2.natAbs % 2 < 2 := Nat.mod_lt _ (by omega)
  have hb3 : c2.position.1.natAbs % 2 < 2 := Nat.mod_lt _ (by omega)
  have hb4 : c2.position.2.natAbs % 2 < 2 := Nat.mod_lt _ (by omega)
  fin_cases hd <;> simp only at hx hy <;> omega

/-- C1: Chunk::should_update(phase) is true iff
(|position.x| & 1) | ((|position.y| & 1) << 1) equals the phase, and in the
Simulation's fixed layout no two distinct chunks whose positions differ by
one of the 8 halo directions share a phase in 0..4. -/
theorem c1_phase_safety :
    (∀ (c : Chunk) (phase : Nat), c.should_update phase = true ↔
      ((c.position.1.natAbs &&& 1) ||| ((c.position.2.natAbs &&& 1) <<< 1)) = phase) ∧
    (∀ i j : Fin 64, ∀ phase : Fin 4, i ≠ j →
      (∃ d ∈ HALO_DIRECTIONS,
        (lget Simulation.new.chunks j.val default).position =
          ((lget Simulation.new.chunks i.val default).position.1 + d.1,
           (lget Simulation.new.chunks i.val default).position.2 + d.2)) →
      ¬((lget Simulation.new.chunks i.val default).should_update phase.val = true ∧
        (lget Simulation.new.chunks j.val default).should_update phase.val = true)) := by
  refine ⟨should_update_iff, ?_⟩
  rintro i j phase _ ⟨d, hd, hpos⟩
  exact halo_neighbors_distinct_phase _ _ d hd
    (by rw [hpos]) (by rw [hpos]) phase.val

/-- Witness for C1 at the first two chunks of the layout and phase 0. -/
theorem c1_phase_safety_witness :
    ¬((lget Simulation.new.chunks 0 default).should_update 0 = true ∧
      (lget Simulation.new.chunks 1 default).should_update 0 = true) :=
  c1_phase_safety.2 (0 : Fin 64) (1 : Fin 64) (0 : Fin 4) (by decide)
    ⟨((1 : Int), (0 : Int)), by decide, by decide⟩

/-! ### The closed form of one Simulation::update call -/

theorem simUpdate_eq (s : Simulation) :
    Simulation.update s =
      if s.tick + 1 > 60 then
        { s with tick := s.tick + 1, chunks := Simulation.runPhases s.chunks (s.tick + 1) }
      else { s with tick := s.tick + 1 } := rfl

/-- C2: one Simulation::update call preserves the total number of non-Empty
cells over all chunks, for every well-formed simulation state. -/
theorem c2_conservation (s : Simulation) (hwf : WFchunks s.chunks) :
    totalCount (Simulation.update s).chunks = totalCount s.chunks := by
  rw [simUpdate_eq]
  by_cases h : s.tick + 1 > 60
  · rw [if_pos h]
    exact (runPhases_WF_count s.chunks (s.tick + 1) hwf).2
  · rw [if_neg h]

/-- Witness for C2 on a small well-formed state. -/
theorem c2_conservation_witness :
    totalCount (Simulation.update
      { chunks := [], center_position := (0, 0), center_chunk_pos := (0, 0),
        tick := 0 }).chunks =
    totalCount ([] : List Chunk) :=
  c2_conservation _ (by intro c hc; simp at hc)

/-- C7: every Simulation::update call increments the tick by exactly one; at
or below the warm-up threshold of 60 the chunks are left exactly as they
were, and above it the four phases run in sequence. -/
theorem c7_warmup_frame (s : Simulation) :
    (Simulation.update s).tick = s.tick + 1 ∧
    ((Simulation.update s).tick ≤ 60 → (Simulation.update s).chunks = s.chunks) ∧
    ((Simulation.update s).tick > 60 →
      (Simulation.update s).chunks = Simulation.runPhases s.chunks (s.tick + 1)) := by
  rw [simUpdate_eq]
  by_cases h : s.tick + 1 > 60
  · rw [if_pos h]
    exact ⟨rfl, fun hc => absurd h (by simp at hc ⊢; omega), fun _ => rfl⟩
  · rw [if_neg h]
    exact ⟨rfl, fun _ => rfl, fun hc => absurd hc (by simp; omega)⟩

/-- Witness for C7 on a concrete state below the warm-up threshold. -/
theorem c7_warmup_frame_witness :
    (Simulation.update
      { chunks := [], center_position := (0, 0), center_chunk_pos := (0, 0),
        tick := 0 }).chunks = ([] : List Chunk) :=
  (c7_warmup_frame _).2.1 (by decide)

/-! ### The sweep order (claim C8) -/


/-- Counterexample for C8: at tick 2 the code's visit order starts at
(0, 31) (y reversed, x forward), while the claimed order starts at (31, 0)
(x reversed, y forward). -/
theorem c8_sweep_cex : Chunk.visitOrder 2 ≠ claimedVisitOrder 2 := by
  intro h
  have hh := congrArg List.head? h
  rw [show (Chunk.visitOrder 2).head? = some ((0 : Int), (31 : Int)) from rfl] at hh
  rw [show (claimedVisitOrder 2).head? = some ((31 : Int), (0 : Int)) from rfl] at hh
  simp at hh

/-- C8 amended: the row direction (x sweep) is reversed exactly when the
tick is divisible by 4, and the column direction (y sweep) is reversed
exactly when the tick is even — the two flags are swapped relative to the
claim. -/
theorem c8_sweep_amended (tick : Nat) :
    Chunk.visitOrder tick = specSweepOrder (tick % 4 == 0) (tick % 2 == 0) := rfl

/-- Counterexample for C9: the texture buffer of CellGrid::empty is
zero-filled, so the alpha byte of the first cell's slot is 0, not the 255 of
Empty's display color. -/
theorem c9_empty_cex :
    lget CellGrid.empty.texture_data 3 0 = 0 ∧ Material.Empty.color.alpha = 255 ∧
      ¬ lget CellGrid.empty.texture_data 3 0 = Material.Empty.color.alpha := by
  refine ⟨rfl, rfl, ?_⟩
  decide

/-- C9 amended: CellGrid::new() delegates to empty(); the empty constructor
makes every cell an Empty cell, but fills the 4096-byte texture buffer with
zeros rather than with Empty's display color (10, 10, 10, 255). -/
theorem c9_empty_amended :
    CellGrid.new = CellGrid.empty ∧
    (∀ i, i < 1024 → lget CellGrid.empty.cells i default = Cell.new Material.Empty) ∧
    CellGrid.empty.texture_data = List.replicate 4096 0 ∧
    Material.Empty.color = CellColor.new 10 10 10 255 := by
  refine ⟨rfl, ?_, rfl, rfl⟩
  intro i hi
  exact lget_replicate _ _ _ _ (by simpa [NUM_CELLS_IN_CHUNK] using hi)

/-- Witness for the amended C9 at cell index 0. -/
theorem c9_empty_amended_witness :
    lget CellGrid.empty.cells 0 default = Cell.new Material.Empty :=
  c9_empty_amended.2.1 0 (by decide)


/-! ### Characterizing Simulation::setup symbolically (claim C6) -/

theorem lset_lget_self (l : List α) (n : Nat) (d : α) (h : n < l.length) :
    lset l n (lget l n d) = l := by
  induction l generalizing n with
  | nil => rfl
  | cons a l ih =>
    cases n with
    | zero => rfl
    | succ n => simp [lset, lget, ih n (by simpa using h)]

theorem position_setHalo (acc : List Chunk) (i : Nat) (h : List (Option Nat)) (m : Nat) :
    (lget (Simulation.setHalo acc i h) m default).position = (lget acc m default).position := by
  unfold Simulation.setHalo
  by_cases hi : i < acc.length
  · by_cases him : i = m
    · subst him
      rw [lget_lset_eq _ _ _ _ hi]
    · rw [lget_lset_ne _ _ _ _ _ him]
  · rw [lset_oob _ _ _ (by omega)]

theorem grid_setHalo (acc : List Chunk) (i : Nat) (h : List (Option Nat)) (m : Nat) :
    (lget (Simulation.setHalo acc i h) m default).grid = (lget acc m default).grid := by
  unfold Simulation.setHalo
  by_cases hi : i < acc.length
  · by_cases him : i = m
    · subst him
      rw [lget_lset_eq _ _ _ _ hi]
    · rw [lget_lset_ne _ _ _ _ _ him]
  · rw [lset_oob _ _ _ (by omega)]

theorem halo_setHalo_self (acc : List Chunk) (i : Nat) (h : List (Option Nat))
    (hi : i < acc.length) : (lget (Simulation.setHalo acc i h) i default).halo = h := by
  unfold Simulation.setHalo
  rw [lget_lset_eq _ _ _ _ hi]

theorem halo_setHalo_other (acc : List Chunk) (i : Nat) (h : List (Option Nat)) (m : Nat)
    (him : i ≠ m) :
    (lget (Simulation.setHalo acc i h) m default).halo = (lget acc m default).halo := by
  unfold Simulation.setHalo
  rw [lget_lset_ne _ _ _ _ _ him]

theorem length_setHalo (acc : List Chunk) (i : Nat) (h : List (Option Nat)) :
    (Simulation.setHalo acc i h).length = acc.length := length_lset ..

theorem position_setupStep (pos0 : Int × Int) (i : Nat) (acc : List Chunk)
    (nd : Nat × (Int × Int)) (m : Nat) :
    (lget (Simulation.setupStep pos0 i acc nd) m default).position =
      (lget acc m default).position := by
  unfold Simulation.setupStep
  by_cases hc : (lget acc (Simulation.get_idx_in_chunks
      (pos0.1 + nd.2.1, pos0.2 + nd.2.2)) default).position = (pos0.1 + nd.2.1, pos0.2 + nd.2.2)
  · rw [if_pos hc]
    exact position_setHalo ..
  · rw [if_neg hc]

theorem grid_setupStep (pos0 : Int × Int) (i : Nat) (acc : List Chunk)
    (nd : Nat × (Int × Int)) (m : Nat) :
    (lget (Simulation.setupStep pos0 i acc nd) m default).grid =
      (lget acc m default).grid := by
  unfold Simulation.setupStep
  by_cases hc : (lget acc (Simulation.get_idx_in_chunks
      (pos0.1 + nd.2.1, pos0.2 + nd.2.2)) default).position = (pos0.1 + nd.2.1, pos0.2 + nd.2.2)
  · rw [if_pos hc]
    exact grid_setHalo ..
  · rw [if_neg hc]

theorem length_setupStep (pos0 : Int × Int) (i : Nat) (acc : List Chunk)
    (nd : Nat × (Int × Int)) :
    (Simulation.setupStep pos0 i acc nd).length = acc.length := by
  unfold Simulation.setupStep
  by_cases hc : (lget acc (Simulation.get_idx_in_chunks
      (pos0.1 + nd.2.1, pos0.2 + nd.2.2)) default).position = (pos0.1 + nd.2.1, pos0.2 + nd.2.2)
  · rw [if_pos hc]
    exact length_setHalo ..
  · rw [if_neg hc]

theorem halo_setupStep_other (pos0 : Int × Int) (i : Nat) (acc : List Chunk)
    (nd : Nat × (Int × Int)) (m : Nat) (him : i ≠ m) :
    (lget (Simulation.setupStep pos0 i acc nd) m default).halo =
      (lget acc m default).halo := by
  unfold Simulation.setupStep
  by_cases hc : (lget acc (Simulation.get_idx_in_chunks
      (pos0.1 + nd.2.1, pos0.2 + nd.2.2)) default).position = (pos0.1 + nd.2.1, pos0.2 + nd.2.2)
  · rw [if_pos hc]
    exact halo_setHalo_other _ _ _ _ him
  · rw [if_neg hc]

theorem halo_length_setupStep (pos0 : Int × Int) (i : Nat) (acc : List Chunk)
    (nd : Nat × (Int × Int)) (m : Nat) :
    (lget (Simulation.setupStep pos0 i acc nd) m default).halo.length =
      (lget acc m default).halo.length := by
  unfold Simulation.setupStep
  by_cases hc : (lget acc (Simulation.get_idx_in_chunks
      (pos0.1 + nd.2.1, pos0.2 + nd.2.2)) default).position = (pos0.1 + nd.2.1, pos0.2 + nd.2.2)
  · rw [if_pos hc]
    by_cases hi : i < acc.length
    · by_cases him : i = m
      · subst him
        rw [halo_setHalo_self _ _ _ hi, length_lset]
      · rw [halo_setHalo_other _ _ _ _ him]
    · unfold Simulation.setHalo
      rw [lset_oob _ _ _ (by omega)]
  · rw [if_neg hc]


theorem setupChunk_fold_char (cs0 : List Chunk) (pos0 : Int × Int) (i : Nat)
    (hi : i < cs0.length) :
    ∀ (E : List (Nat × (Int × Int))) (acc : List Chunk),
      acc.length = cs0.length →
      (∀ m, (lget acc m default).position = (lget cs0 m default).position) →
      (lget acc i default).halo.length = 8 →
      (E.map Prod.fst).Nodup →
      ∀ d, d < 8 →
        lget (lget (E.foldl (Simulation.setupStep pos0 i) acc) i default).halo d none =
          (match E.find? (fun e => e.1 == d) with
           | some nd =>
              if (lget cs0 (Simulation.get_idx_in_chunks
                    (pos0.1 + nd.2.1, pos0.2 + nd.2.2)) default).position =
                  (pos0.1 + nd.2.1, pos0.2 + nd.2.2)
              then some (Simulation.get_idx_in_chunks (pos0.1 + nd.2.1, pos0.2 + nd.2.2))
              else lget (lget acc i default).halo d none
           | none => lget (lget acc i default).halo d none) := by
  intro E
  induction E with
  | nil =>
    intro acc _ _ _ _ d _
    rfl
  | cons nd E ih =>
    intro acc hlen hpos hhl hnd d hd
    have hain : i < acc.length := by omega
    have hcond : ((lget acc (Simulation.get_idx_in_chunks
        (pos0.1 + nd.2.1, pos0.2 + nd.2.2)) default).position =
          (pos0.1 + nd.2.1, pos0.2 + nd.2.2)) ↔
        ((lget cs0 (Simulation.get_idx_in_chunks
          (pos0.1 + nd.2.1, pos0.2 + nd.2.2)) default).position =
          (pos0.1 + nd.2.1, pos0.2 + nd.2.2)) := by
      rw [hpos]
    have hstep_halo : lget (lget (Simulation.setupStep pos0 i acc nd) i default).halo d none =
        if nd.1 = d ∧ (lget cs0 (Simulation.get_idx_in_chunks
            (pos0.1 + nd.2.1, pos0.2 + nd.2.2)) default).position =
            (pos0.1 + nd.2.1, pos0.2 + nd.2.2)
        then some (Simulation.get_idx_in_chunks (pos0.1 + nd.2.1, pos0.2 + nd.2.2))
        else lget (lget acc i default).halo d none := by
      unfold Simulation.setupStep
      by_cases hc : (lget acc (Simulation.get_idx_in_chunks
          (pos0.1 + nd.2.1, pos0.2 + nd.2.2)) default).position =
          (pos0.1 + nd.2.1, pos0.2 + nd.2.2)
      · rw [if_pos hc, halo_setHalo_self _ _ _ hain]
        by_cases hnd1 : nd.1 = d
        · subst hnd1
          rw [lget_lset_eq _ _ _ _ (by omega), if_pos ⟨rfl, hcond.mp hc⟩]
        · rw [lget_lset_ne _ _ _ _ _ hnd1, if_neg (fun hx => hnd1 hx.1)]
      · rw [if_neg hc, if_neg (fun hx => hc (hcond.mpr hx.2))]
    show lget (lget (E.foldl (Simulation.setupStep pos0 i)
      (Simulation.setupStep pos0 i acc nd)) i default).halo d none = _
    have hlen1 : (Simulation.setupStep pos0 i acc nd).length = cs0.length := by
      rw [length_setupStep]; exact hlen
    have hpos1 : ∀ m, (lget (Simulation.setupStep pos0 i acc nd) m default).position =
        (lget cs0 m default).position := by
      intro m
      rw [position_setupStep]; exact hpos m
    have hhl1 : (lget (Simulation.setupStep pos0 i acc nd) i default).halo.length = 8 := by
      rw [halo_length_setupStep]; exact hhl
    have hnodup : (E.map Prod.fst).Nodup := (List.nodup_cons.mp (by simpa using hnd)).2
    rw [ih _ hlen1 hpos1 hhl1 hnodup d hd]
    by_cases hfind : nd.1 = d
    · have hnotin : E.find? (fun e => e.1 == d) = none := by
        rw [List.find?_eq_none]
        intro x hx
        have hni : nd.1 ∉ E.map Prod.fst := (List.nodup_cons.mp (by simpa using hnd)).1
        simp only [beq_iff_eq]
        intro hxd
        exact hni (hfind ▸ hxd ▸ List.mem_map_of_mem Prod.fst hx)
      have hheadeq : List.find? (fun e => e.1 == d) (nd :: E) = some nd := by
        rw [List.find?_cons]
        simp [hfind]
      rw [hnotin, hheadeq, hstep_halo]
      by_cases hc : (lget cs0 (Simulation.get_idx_in_chunks
          (pos0.1 + nd.2.1, pos0.2 + nd.2.2)) default).position =
          (pos0.1 + nd.2.1, pos0.2 + nd.2.2)
      · rw [if_pos ⟨hfind, hc⟩]
        exact (if_pos hc).symm
      · rw [if_neg (fun hx : nd.1 = d ∧ _ => hc hx.2)]
        exact (if_neg hc).symm
    · have hbeq : ¬ ((nd.1 == d) = true) := by
        simpa using hfind
      have hheadne : List.find? (fun e => e.1 == d) (nd :: E) =
          List.find? (fun e => e.1 == d) E :=
        List.find?_cons_of_neg _ hbeq
      rw [hheadne, hstep_halo, if_neg (fun hx : nd.1 = d ∧ _ => hfind hx.1)]

theorem setupChunk_position (cs : List Chunk) (i m : Nat) :
    (lget (Simulation.setupChunk cs i) m default).position = (lget cs m default).position := by
  unfold Simulation.setupChunk
  exact foldl_pres (fun acc => (lget acc m default).position = (lget cs m default).position)
    (Simulation.setupStep (lget cs i default).position i) HALO_DIRECTIONS.enum
    (fun x nd _ hx => ((position_setupStep (lget cs i default).position i x nd m).trans hx : _)) cs rfl

theorem setupChunk_grid (cs : List Chunk) (i m : Nat) :
    (lget (Simulation.setupChunk cs i) m default).grid = (lget cs m default).grid := by
  unfold Simulation.setupChunk
  exact foldl_pres (fun acc => (lget acc m default).grid = (lget cs m default).grid)
    (Simulation.setupStep (lget cs i default).position i) HALO_DIRECTIONS.enum
    (fun x nd _ hx => ((grid_setupStep (lget cs i default).position i x nd m).trans hx : _)) cs rfl

theorem setupChunk_length (cs : List Chunk) (i : Nat) :
    (Simulation.setupChunk cs i).length = cs.length := by
  unfold Simulation.setupChunk
  exact foldl_pres (fun acc => acc.length = cs.length)
    (Simulation.setupStep (lget cs i default).position i) HALO_DIRECTIONS.enum
    (fun x nd _ hx => ((length_setupStep (lget cs i default).position i x nd).trans hx : _)) cs rfl

theorem setupChunk_halo_length (cs : List Chunk) (i m : Nat) :
    (lget (Simulation.setupChunk cs i) m default).halo.length =
      (lget cs m default).halo.length := by
  unfold Simulation.setupChunk
  exact foldl_pres
    (fun acc => (lget acc m default).halo.length = (lget cs m default).halo.length)
    (Simulation.setupStep (lget cs i default).position i) HALO_DIRECTIONS.enum
    (fun x nd _ hx => ((halo_length_setupStep (lget cs i default).position i x nd m).trans hx : _)) cs rfl

theorem setupChunk_halo_other (cs : List Chunk) (i m : Nat) (him : i ≠ m) :
    (lget (Simulation.setupChunk cs i) m default).halo = (lget cs m default).halo := by
  unfold Simulation.setupChunk
  exact foldl_pres (fun acc => (lget acc m default).halo = (lget cs m default).halo)
    (Simulation.setupStep (lget cs i default).position i) HALO_DIRECTIONS.enum
    (fun x nd _ hx => ((halo_setupStep_other (lget cs i default).position i x nd m him).trans hx : _)) cs rfl

theorem setupChunk_char (cs : List Chunk) (i : Nat) (hi : i < cs.length)
    (hhl : (lget cs i default).halo.length = 8) (d : Nat) (hd : d < 8) :
    lget (lget (Simulation.setupChunk cs i) i default).halo d none =
      (if (lget cs (Simulation.get_idx_in_chunks (neighPos cs i d)) default).position =
          neighPos cs i d
       then some (Simulation.get_idx_in_chunks (neighPos cs i d))
       else lget (lget cs i default).halo d none) := by
  have hfold := setupChunk_fold_char cs (lget cs i default).position i hi
    HALO_DIRECTIONS.enum cs rfl (fun _ => rfl) hhl (by decide) d hd
  have hfind : HALO_DIRECTIONS.enum.find? (fun e => e.1 == d) =
      some (d, lget HALO_DIRECTIONS d (0, 0)) := by
    interval_cases d <;> rfl
  unfold Simulation.setupChunk
  rw [hfold, hfind]
  rfl

theorem setup_fold_char (cs0 : List Chunk) :
    ∀ (ks : List Nat) (acc : List Chunk),
      acc.length = cs0.length →
      (∀ m, (lget acc m default).position = (lget cs0 m default).position) →
      (∀ m, (lget acc m default).halo.length = 8) →
      ks.Nodup →
      (ks.foldl Simulation.setupChunk acc).length = cs0.length ∧
      (∀ m, (lget (ks.foldl Simulation.setupChunk acc) m default).position =
        (lget cs0 m default).position) ∧
      (∀ i, i ∉ ks → (lget (ks.foldl Simulation.setupChunk acc) i default).halo =
        (lget acc i default).halo) ∧
      (∀ i ∈ ks, i < cs0.length → ∀ d, d < 8 →
        lget (lget (ks.foldl Simulation.setupChunk acc) i default).halo d none =
          (if (lget cs0 (Simulation.get_idx_in_chunks (neighPos cs0 i d)) default).position =
              neighPos cs0 i d
           then some (Simulation.get_idx_in_chunks (neighPos cs0 i d))
           else lget (lget acc i default).halo d none)) := by
  intro ks
  induction ks with
  | nil =>
    intro acc hlen hpos _ _
    exact ⟨hlen, hpos, fun i _ => rfl, fun i hi => absurd hi (by simp)⟩
  | cons k ks ih =>
    intro acc hlen hpos hhl hnd
    have hk_notin : k ∉ ks := (List.nodup_cons.mp hnd).1
    have hnd2 : ks.Nodup := (List.nodup_cons.mp hnd).2
    have hlen1 : (Simulation.setupChunk acc k).length = cs0.length := by
      rw [setupChunk_length]; exact hlen
    have hpos1 : ∀ m, (lget (Simulation.setupChunk acc k) m default).position =
        (lget cs0 m default).position := by
      intro m; rw [setupChunk_position]; exact hpos m
    have hhl1 : ∀ m, (lget (Simulation.setupChunk acc k) m default).halo.length = 8 := by
      intro m; rw [setupChunk_halo_length]; exact hhl m
    obtain ⟨ja, jb, jc, jd⟩ := ih (Simulation.setupChunk acc k) hlen1 hpos1 hhl1 hnd2
    rw [List.foldl_cons]
    refine ⟨ja, jb, ?_, ?_⟩
    · intro i hi
      have hik : i ≠ k := fun hc => hi (hc ▸ List.mem_cons_self k ks)
      have his : i ∉ ks := fun hc => hi (List.mem_cons_of_mem k hc)
      rw [jc i his, setupChunk_halo_other _ _ _ (fun hc => hik hc.symm)]
    · intro i hi hilt d hd
      rcases List.mem_cons.mp hi with hik | hiks
      · subst hik
        have hinot : i ∉ ks := hk_notin
        rw [jc i hinot]
        have hchar := setupChunk_char acc i (by omega) (hhl i) d hd
        rw [hchar]
        have hnp : neighPos acc i d = neighPos cs0 i d := by
          unfold neighPos; rw [hpos i]
        rw [hnp, hpos]
      · have hik : i ≠ k := fun hc => hk_notin (hc ▸ hiks)
        rw [jd i hiks hilt d hd, setupChunk_halo_other _ _ _ (fun hc => hik hc.symm)]

theorem new_chunks_length : Simulation.new.chunks.length = 64 := by decide

theorem new_chunks_halo (m : Nat) :
    (lget Simulation.new.chunks m default).halo = List.replicate 8 none := by
  by_cases hm : m < 64
  · have h64 : ∀ k : Fin 64,
        (lget Simulation.new.chunks k.val default).halo = List.replicate 8 none := by decide
    exact h64 ⟨m, hm⟩
  · rw [lget_oob _ _ _ (by rw [new_chunks_length]; omega)]
    rfl

theorem c6_halo_wiring_concrete : ∀ i : Fin 64, ∀ d : Fin 8,
    (∃ j : Fin 64, expectedHalo Simulation.new.chunks i.val d.val = some j.val ∧
      (lget Simulation.new.chunks j.val default).position =
        neighPos Simulation.new.chunks i.val d.val) ∨
    (expectedHalo Simulation.new.chunks i.val d.val = none ∧
      ∀ j : Fin 64, (lget Simulation.new.chunks j.val default).position ≠
        neighPos Simulation.new.chunks i.val d.val) := by
  set_option maxRecDepth 4000 in decide

set_option maxRecDepth 8000 in
/-- C6: after Simulation::setup has run once on the fixed layout, every
chunk's halo entry d is Some and points at the chunk (hence at its grid)
located at position + direction(d) exactly when a chunk with that position
exists in the layout, and is None for directions that leave the layout. -/
theorem c6_halo_wiring : ∀ i : Fin 64, ∀ d : Fin 8,
    (∃ j : Fin 64,
      lget (lget (Simulation.setup Simulation.new).chunks i.val default).halo d.val none =
        some j.val ∧
      (lget (Simulation.setup Simulation.new).chunks j.val default).position =
        neighPos (Simulation.setup Simulation.new).chunks i.val d.val) ∨
    (lget (lget (Simulation.setup Simulation.new).chunks i.val default).halo d.val none =
        none ∧
      ∀ j : Fin 64,
        (lget (Simulation.setup Simulation.new).chunks j.val default).position ≠
          neighPos (Simulation.setup Simulation.new).chunks i.val d.val) := by
  have hSgen : ∀ s : Simulation, (Simulation.setup s).chunks =
      (List.range s.chunks.length).foldl Simulation.setupChunk s.chunks := by
    intro s
    unfold Simulation.setup
    rfl
  have hS : (Simulation.setup Simulation.new).chunks =
      (List.range 64).foldl Simulation.setupChunk Simulation.new.chunks := by
    rw [hSgen, new_chunks_length]
  obtain ⟨ha, hb, hc, hd2⟩ := setup_fold_char Simulation.new.chunks (List.range 64)
    Simulation.new.chunks rfl (fun _ => rfl)
    (fun m => by rw [new_chunks_halo m]; rfl) (List.nodup_range 64)
  intro i d
  have hposAll : ∀ m, (lget (Simulation.setup Simulation.new).chunks m default).position =
      (lget Simulation.new.chunks m default).position := by
    intro m; rw [hS]; exact hb m
  have hnp : neighPos (Simulation.setup Simulation.new).chunks i.val d.val =
      neighPos Simulation.new.chunks i.val d.val := by
    unfold neighPos; rw [hposAll]
  have hentry : lget (lget (Simulation.setup Simulation.new).chunks i.val default).halo
      d.val none = expectedHalo Simulation.new.chunks i.val d.val := by
    rw [hS, hd2 i.val (List.mem_range.mpr i.isLt)
      (by rw [new_chunks_length]; exact i.isLt) d.val d.isLt]
    rw [new_chunks_halo i.val, lget_replicate 8 d.val none none d.isLt]
    unfold expectedHalo
    rfl
  simp only [hentry, hnp, hposAll]
  exact c6_halo_wiring_concrete i d

/-! ### Open boundary: a bottom-row Sand cell with no south neighbor -/

theorem c5_step_pres (iA tick : Nat) (x : Int) (hx : 0 ≤ x ∧ x < 32)
    (c0 : Cell) (t : Nat → Nat) (cs : List Chunk) (q : GridPos) (hq : inRange q)
    (hP : WFchunks cs ∧ lget (lget cs iA default).halo 6 none = none ∧
      cellAt cs iA (CellGrid.grid_idx (x, 31)) = c0 ∧ c0.material = Material.Sand ∧
      (∀ r, r < 4 → texAt cs iA (4 * CellGrid.grid_idx (x, 31) + r) = t r)) :
    WFchunks (Chunk.updateCell cs iA tick q) ∧
    lget (lget (Chunk.updateCell cs iA tick q) iA default).halo 6 none = none ∧
    cellAt (Chunk.updateCell cs iA tick q) iA (CellGrid.grid_idx (x, 31)) = c0 ∧
    c0.material = Material.Sand ∧
    (∀ r, r < 4 →
      texAt (Chunk.updateCell cs iA tick q) iA (4 * CellGrid.grid_idx (x, 31) + r) = t r) := by
  obtain ⟨hwf, hhalo, hcell, hsand, htex⟩ := hP
  rcases updateCell_cases cs iA tick q hwf hq with h | ⟨hqs, hqt, hci, cj, hcj, hres, hemp, heq⟩
  · rw [h]
    exact ⟨hwf, hhalo, hcell, hsand, htex⟩
  · -- a move from q happened: it cannot involve the bottom-row slot (x, 31)
    have hq31 : q.2 < 31 ∧ cj = iA := by
      rcases hres with h | ⟨_, hsome⟩
      · exact h
      · rw [hhalo] at hsome
        exact absurd hsome (by simp)
    obtain ⟨hqlt, hcjeq⟩ := hq31
    rw [hcjeq] at heq hcj hemp
    have hbw : belowWrap q = (q.1, q.2 + 1) := belowWrap_of_lt q hq hqlt
    have hgq31 : CellGrid.grid_idx q ≠ CellGrid.grid_idx (x, 31) := by
      obtain ⟨h1, h2, h3, h4⟩ := hq
      unfold CellGrid.grid_idx
      simp only
      omega
    have hgb31 : CellGrid.grid_idx (belowWrap q) ≠ CellGrid.grid_idx (x, 31) := by
      intro hc
      have hbr : belowWrap q = (x, 31) :=
        grid_idx_inj _ _ (inRange_belowWrap q) ⟨hx.1, hx.2, by omega, by omega⟩ hc
      rw [hbr, hcell] at hemp
      rw [hsand] at hemp
      exact absurd hemp (by decide)
    have hwf4 : WFchunks (Chunk.updateCell cs iA tick q) := by
      rw [heq]
      exact WF_writeColor _ _ _ _ (WF_writeColor _ _ _ _
        (WF_writeCell _ _ _ _ (WF_writeCell _ _ _ _ hwf)))
    refine ⟨hwf4, ?_, ?_, hsand, ?_⟩
    · rw [heq, halo_writeColor, halo_writeColor, halo_writeCell, halo_writeCell]
      exact hhalo
    · rw [heq, cellAt_writeColor, cellAt_writeColor,
        cellAt_writeCell_ne _ _ _ _ _ _ (Or.inr hgb31),
        cellAt_writeCell_ne _ _ _ _ _ _ (Or.inr hgq31)]
      exact hcell
    · intro r hr
      rw [heq,
        texAt_writeColor_ne _ _ _ _ _ _ (Or.inr (by
          intro r2 hr2
          intro hcontra
          exact hgb31 (by omega))),
        texAt_writeColor_ne _ _ _ _ _ _ (Or.inr (by
          intro r2 hr2
          intro hcontra
          exact hgq31 (by omega))),
        texAt_writeCell, texAt_writeCell]
      exact htex r hr


/-- C5: a Sand cell in the bottom row of a chunk whose south halo entry is
None keeps its cell and its texture bytes through a whole Chunk::update
(the move is aborted at the open boundary); and for every visited cell the
wrapped below-position lies in [0, 32) x [0, 32), both grid indices are in
range, the move either stays in the own grid or follows the south halo
link, and the total cell count is preserved (no cell is ever lost). -/
theorem c5_open_boundary :
    (∀ (cs : List Chunk) (iA tick : Nat) (x : Int), WFchunks cs → 0 ≤ x → x < 32 →
      lget (lget cs iA default).halo 6 none = none →
      (cellAt cs iA (CellGrid.grid_idx (x, 31))).material = Material.Sand →
      cellAt (Chunk.update cs iA tick) iA (CellGrid.grid_idx (x, 31)) =
        cellAt cs iA (CellGrid.grid_idx (x, 31)) ∧
      (∀ r, r < 4 →
        texAt (Chunk.update cs iA tick) iA (4 * CellGrid.grid_idx (x, 31) + r) =
          texAt cs iA (4 * CellGrid.grid_idx (x, 31) + r))) ∧
    (∀ (cs : List Chunk) (ci tick : Nat) (p : GridPos), WFchunks cs → inRange p →
      inRange (belowWrap p) ∧ CellGrid.grid_idx p < 1024 ∧
      CellGrid.grid_idx (belowWrap p) < 1024 ∧
      (Chunk.updateCell cs ci tick p = cs ∨
        ∃ cj, cj < cs.length ∧ ((p.2 < 31 ∧ cj = ci) ∨
          (p.2 = 31 ∧ lget (lget cs ci default).halo 6 none = some cj))) ∧
      totalCount (Chunk.updateCell cs ci tick p) = totalCount cs) := by
  constructor
  · intro cs iA tick x hwf hx1 hx2 hhalo hsand
    have hfold := foldl_pres
      (fun acc => WFchunks acc ∧ lget (lget acc iA default).halo 6 none = none ∧
        cellAt acc iA (CellGrid.grid_idx (x, 31)) =
          cellAt cs iA (CellGrid.grid_idx (x, 31)) ∧
        (cellAt cs iA (CellGrid.grid_idx (x, 31))).material = Material.Sand ∧
        (∀ r, r < 4 → texAt acc iA (4 * CellGrid.grid_idx (x, 31) + r) =
          texAt cs iA (4 * CellGrid.grid_idx (x, 31) + r)))
      (fun acc p => Chunk.updateCell acc iA tick p) (Chunk.visitOrder tick)
      (fun acc q hq hP =>
        c5_step_pres iA tick x ⟨hx1, hx2⟩ (cellAt cs iA (CellGrid.grid_idx (x, 31)))
          (fun r => texAt cs iA (4 * CellGrid.grid_idx (x, 31) + r)) acc q
          ((mem_visitOrder tick q).mp hq) hP)
      cs ⟨hwf, hhalo, rfl, hsand, fun r _ => rfl⟩
    exact ⟨hfold.2.2.1, hfold.2.2.2.2⟩
  · intro cs ci tick p hwf hp
    refine ⟨inRange_belowWrap p, grid_idx_lt p hp, grid_idx_lt _ (inRange_belowWrap p), ?_,
      updateCell_count cs ci tick p hwf hp⟩
    rcases updateCell_cases cs ci tick p hwf hp with h | ⟨_, _, _, cj, hcj, hres, _, _⟩
    · exact Or.inl h
    · exact Or.inr ⟨cj, hcj, hres⟩

theorem loneSand_WF : WFchunks [loneSandChunk] := by
  intro c hc
  have hcl : c = loneSandChunk := by simpa using hc
  subst hcl
  refine ⟨?_, ?_, ?_, ?_⟩
  · show (lset (List.replicate 1024 (Cell.new .Empty)) 992 (Cell.new .Sand)).length =
      NUM_CELLS_IN_CHUNK
    rw [length_lset, List.length_replicate]
    rfl
  · show (List.replicate 4096 (0 : Nat)).length = 4 * NUM_CELLS_IN_CHUNK
    rw [List.length_replicate]
    rfl
  · show (List.replicate 8 (none : Option Nat)).length = 8
    rw [List.length_replicate]
  · intro h hh
    have : h = none := (List.eq_of_mem_replicate hh)
    subst this
    trivial

theorem loneSand_cells_length :
    (lget [loneSandChunk] 0 default).grid.cells.length = 1024 := by
  show (lset (List.replicate 1024 (Cell.new .Empty)) 992 (Cell.new .Sand)).length = 1024
  rw [length_lset, List.length_replicate]

theorem loneSand_sand :
    (cellAt [loneSandChunk] 0 (CellGrid.grid_idx (0, 31))).material = Material.Sand := by
  show (lget (lset (List.replicate 1024 (Cell.new .Empty)) 992 (Cell.new .Sand))
    (CellGrid.grid_idx (0, 31)) default).material = Material.Sand
  have hidx : CellGrid.grid_idx (0, 31) = 992 := rfl
  rw [hidx, lget_lset_eq _ _ _ _ (by rw [List.length_replicate]; omega)]
  rfl

theorem loneSand_halo : lget (lget [loneSandChunk] 0 default).halo 6 none = none := by
  show lget (List.replicate 8 none) 6 none = none
  rw [lget_replicate 8 6 none none (by omega)]

/-- Witness for C5: the lone-Sand-chunk state with no halo links. -/
theorem c5_open_boundary_witness :
    cellAt (Chunk.update [loneSandChunk] 0 1) 0 (CellGrid.grid_idx (0, 31)) =
      cellAt [loneSandChunk] 0 (CellGrid.grid_idx (0, 31)) ∧
    totalCount (Chunk.updateCell [loneSandChunk] 0 1 (0, 0)) = totalCount [loneSandChunk] :=
  ⟨(c5_open_boundary.1 [loneSandChunk] 0 1 0 loneSand_WF (by omega) (by omega)
      loneSand_halo loneSand_sand).1,
   (c5_open_boundary.2 [loneSandChunk] 0 1 (0, 0) loneSand_WF
      (by exact ⟨by omega, by omega, by omega, by omega⟩)).2.2.2.2⟩

/-! ### The two positive move shapes of the update step (claim C3) -/

theorem updateCell_length (cs : List Chunk) (ci tick : Nat) (p : GridPos)
    (hwf : WFchunks cs) (hp : inRange p) :
    (Chunk.updateCell cs ci tick p).length = cs.length := by
  rcases updateCell_cases cs ci tick p hwf hp with h | ⟨_, _, _, cj, _, _, _, heq⟩
  · rw [h]
  · rw [heq, length_writeColor, length_writeColor, length_writeCell, length_writeCell]

theorem updateCell_move_south (cs : List Chunk) (ci cj tick : Nat) (p : GridPos)
    (hwf : WFchunks cs) (hp : inRange p) (hp31 : p.2 = 31)
    (hsand : (cellAt cs ci (CellGrid.grid_idx p)).material = Material.Sand)
    (hstamp : (cellAt cs ci (CellGrid.grid_idx p)).last_processed_in_tick ≠ tick)
    (hhalo : lget (lget cs ci default).halo 6 none = some cj)
    (hempty : (cellAt cs cj (CellGrid.grid_idx (belowWrap p))).material = Material.Empty) :
    Chunk.updateCell cs ci tick p =
      writeColor (writeColor (writeCell (writeCell cs ci (CellGrid.grid_idx p)
            (cellAt cs cj (CellGrid.grid_idx (belowWrap p))))
          cj (CellGrid.grid_idx (belowWrap p))
          { cellAt cs ci (CellGrid.grid_idx p) with last_processed_in_tick := tick })
        ci (CellGrid.grid_idx p)
        (cellAt cs cj (CellGrid.grid_idx (belowWrap p))).material.color)
        cj (CellGrid.grid_idx (belowWrap p))
        (cellAt cs ci (CellGrid.grid_idx p)).material.color := by
  have hgq : CellGrid.grid_idx p < 1024 := grid_idx_lt p hp
  have hbq : CellGrid.grid_idx (belowWrap p) < 1024 := grid_idx_lt _ (inRange_belowWrap p)
  obtain ⟨hp1, hp2, hp3, hp4⟩ := hp
  have hci : ci < cs.length := by
    by_contra hci
    rw [cellAt_oob_material cs ci _ hci hgq] at hsand
    exact absurd hsand (by decide)
  have hlen : (lget cs ci default).grid.cells.length = 1024 := by
    have := (hwf (lget cs ci default) (lget_mem cs ci default hci)).1
    simpa [NUM_CELLS_IN_CHUNK] using this
  have hxge : ¬ (32 ≤ p.1) := by omega
  have hxlt : ¬ (p.1 < 0) := by omega
  have hyneg : ¬ (p.2 + 1 < 0) := by omega
  have hyge : (32 : Int) ≤ p.2 + 1 := by omega
  have hbw : belowWrap p = (p.1, 0) := belowWrap_of_eq p ⟨hp1, hp2, hp3, hp4⟩ hp31
  simp only [Chunk.updateCell, get_cell_cellAt]
  rw [if_neg hstamp, if_pos hsand]
  simp only [if_neg hxge, if_neg hxlt, if_pos hyge, if_neg hyneg, sub_zero]
  rw [get_grid_from_dir_south, hhalo]
  have hbp : ((p.1.emod 32 : Int), ((p.2 + 1).emod 32 : Int)) = belowWrap p := rfl
  simp only [hbp]
  rw [if_pos hempty]
  have hswap1 : cellAt (writeCell cs ci (CellGrid.grid_idx p)
      { cellAt cs ci (CellGrid.grid_idx p) with last_processed_in_tick := tick })
      ci (CellGrid.grid_idx p) =
      { cellAt cs ci (CellGrid.grid_idx p) with last_processed_in_tick := tick } :=
    cellAt_writeCell_self cs ci _ _ hci (by omega)
  have hne : ci ≠ cj ∨ CellGrid.grid_idx p ≠ CellGrid.grid_idx (belowWrap p) := by
    by_cases hcij : ci = cj
    · right
      rw [hbw]
      unfold CellGrid.grid_idx
      have hpt : p.2.toNat = 31 := by omega
      simp only [hpt]
      omega
    · exact Or.inl hcij
  have hswap2 : cellAt (writeCell cs ci (CellGrid.grid_idx p)
      { cellAt cs ci (CellGrid.grid_idx p) with last_processed_in_tick := tick })
      cj (CellGrid.grid_idx (belowWrap p)) =
      cellAt cs cj (CellGrid.grid_idx (belowWrap p)) :=
    cellAt_writeCell_ne cs ci cj _ _ _ hne
  rw [hswap1, hswap2]
  rw [writeCell_collapse cs ci (CellGrid.grid_idx p) _ _ hci]

theorem updateCell_move_own (cs : List Chunk) (ci tick : Nat) (p : GridPos)
    (hwf : WFchunks cs) (hp : inRange p) (hplt : p.2 < 31)
    (hsand : (cellAt cs ci (CellGrid.grid_idx p)).material = Material.Sand)
    (hstamp : (cellAt cs ci (CellGrid.grid_idx p)).last_processed_in_tick ≠ tick)
    (hempty : (cellAt cs ci (CellGrid.grid_idx (belowWrap p))).material = Material.Empty) :
    Chunk.updateCell cs ci tick p =
      writeColor (writeColor (writeCell (writeCell cs ci (CellGrid.grid_idx p)
            (cellAt cs ci (CellGrid.grid_idx (belowWrap p))))
          ci (CellGrid.grid_idx (belowWrap p))
          { cellAt cs ci (CellGrid.grid_idx p) with last_processed_in_tick := tick })
        ci (CellGrid.grid_idx p)
        (cellAt cs ci (CellGrid.grid_idx (belowWrap p))).material.color)
        ci (CellGrid.grid_idx (belowWrap p))
        (cellAt cs ci (CellGrid.grid_idx p)).material.color := by
  have hgq : CellGrid.grid_idx p < 1024 := grid_idx_lt p hp
  have hbq : CellGrid.grid_idx (belowWrap p) < 1024 := grid_idx_lt _ (inRange_belowWrap p)
  obtain ⟨hp1, hp2, hp3, hp4⟩ := hp
  have hci : ci < cs.length := by
    by_contra hci
    rw [cellAt_oob_material cs ci _ hci hgq] at hsand
    exact absurd hsand (by decide)
  have hlen : (lget cs ci default).grid.cells.length = 1024 := by
    have := (hwf (lget cs ci default) (lget_mem cs ci default hci)).1
    simpa [NUM_CELLS_IN_CHUNK] using this
  have hxge : ¬ (32 ≤ p.1) := by omega
  have hxlt : ¬ (p.1 < 0) := by omega
  have hyneg : ¬ (p.2 + 1 < 0) := by omega
  have hylt : ¬ (32 : Int) ≤ p.2 + 1 := by omega
  have hbw : belowWrap p = (p.1, p.2 + 1) := belowWrap_of_lt p ⟨hp1, hp2, hp3, hp4⟩ hplt
  simp only [Chunk.updateCell, get_cell_cellAt]
  rw [if_neg hstamp, if_pos hsand]
  simp only [if_neg hxge, if_neg hxlt, if_neg hylt, if_neg hyneg, sub_zero]
  rw [get_grid_from_dir_own]
  have hbp : ((p.1.emod 32 : Int), ((p.2 + 1).emod 32 : Int)) = belowWrap p := rfl
  simp only [hbp]
  rw [if_pos hempty]
  have hswap1 : cellAt (writeCell cs ci (CellGrid.grid_idx p)
      { cellAt cs ci (CellGrid.grid_idx p) with last_processed_in_tick := tick })
      ci (CellGrid.grid_idx p) =
      { cellAt cs ci (CellGrid.grid_idx p) with last_processed_in_tick := tick } :=
    cellAt_writeCell_self cs ci _ _ hci (by omega)
  have hne : ci ≠ ci ∨ CellGrid.grid_idx p ≠ CellGrid.grid_idx (belowWrap p) := by
    right
    intro hc
    have h5 := grid_idx_inj p (belowWrap p) ⟨hp1, hp2, hp3, hp4⟩ (inRange_belowWrap p) hc
    rw [hbw] at h5
    have h6 := congrArg Prod.snd h5
    simp at h6
  have hswap2 : cellAt (writeCell cs ci (CellGrid.grid_idx p)
      { cellAt cs ci (CellGrid.grid_idx p) with last_processed_in_tick := tick })
      ci (CellGrid.grid_idx (belowWrap p)) =
      cellAt cs ci (CellGrid.grid_idx (belowWrap p)) :=
    cellAt_writeCell_ne cs ci ci _ _ _ hne
  rw [hswap1, hswap2]
  rw [writeCell_collapse cs ci (CellGrid.grid_idx p) _ _ hci]


theorem gq_ne_31 (q : GridPos) (x : Int) (hq : inRange q) (hx : 0 ≤ x ∧ x < 32)
    (hlt : q.2 < 31) : CellGrid.grid_idx q ≠ CellGrid.grid_idx (x, 31) := by
  obtain ⟨h1, h2, h3, h4⟩ := hq
  unfold CellGrid.grid_idx
  simp only
  omega

theorem gq_ne_30 (q : GridPos) (x : Int) (hq : inRange q) (hx : 0 ≤ x ∧ x < 32)
    (h31 : q.2 = 31) : CellGrid.grid_idx q ≠ CellGrid.grid_idx (x, 30) := by
  obtain ⟨h1, h2, h3, h4⟩ := hq
  unfold CellGrid.grid_idx
  simp only
  omega

theorem grid_idx_eq_pos (q w : GridPos) (hq : inRange q) (hw : inRange w)
    (h : CellGrid.grid_idx q = CellGrid.grid_idx w) : q = w :=
  grid_idx_inj q w hq hw h

theorem c3_pre_step (iA iB tick : Nat) (x : Int) (s0 b0 : Cell) (n : Nat)
    (hAB : iA ≠ iB) (hx : 0 ≤ x ∧ x < 32) (hs0 : s0.material = Material.Sand)
    (acc : List Chunk) (q : GridPos) (hq : inRange q) (hqne : q ≠ (x, 31))
    (hP : c3Pre iA iB tick x s0 b0 n acc) :
    c3Pre iA iB tick x s0 b0 n (Chunk.updateCell acc iA tick q) := by
  obtain ⟨hwf, hlen, hhalo, hc31, hc0, hI3⟩ := hP
  rcases updateCell_cases acc iA tick q hwf hq with h | ⟨hqs, hqt, hciA, cj, hcj, hres, hemp, heq⟩
  · rw [h]
    exact ⟨hwf, hlen, hhalo, hc31, hc0, hI3⟩
  have hx31 : inRange ((x : Int), (31 : Int)) := ⟨hx.1, hx.2, by omega, by omega⟩
  have hx30 : inRange ((x : Int), (30 : Int)) := ⟨hx.1, hx.2, by omega, by omega⟩
  have hx0 : inRange ((x : Int), (0 : Int)) := ⟨hx.1, hx.2, by omega, by omega⟩
  have hwf4 : WFchunks (Chunk.updateCell acc iA tick q) := by
    rw [heq]
    exact WF_writeColor _ _ _ _ (WF_writeColor _ _ _ _
      (WF_writeCell _ _ _ _ (WF_writeCell _ _ _ _ hwf)))
  have hlen4 : (Chunk.updateCell acc iA tick q).length = n := by
    rw [heq, length_writeColor, length_writeColor, length_writeCell, length_writeCell]
    exact hlen
  have hhalo4 : lget (lget (Chunk.updateCell acc iA tick q) iA default).halo 6 none =
      some iB := by
    rw [heq, halo_writeColor, halo_writeColor, halo_writeCell, halo_writeCell]
    exact hhalo
  rcases hres with ⟨hqlt, hcjeq⟩ | ⟨hq2, hsome⟩
  · -- move inside the own grid
    rw [hcjeq] at heq hemp hcj
    have hbwq : belowWrap q = (q.1, q.2 + 1) := belowWrap_of_lt q hq hqlt
    have hq30 : q ≠ ((x : Int), (30 : Int)) := by
      intro hc
      rw [hbwq] at hemp
      have h6 : q.1 = x := by rw [hc]
      have h7 : q.2 = 30 := by rw [hc]
      have hbeq : ((q.1, q.2 + 1) : GridPos) = ((x : Int), (31 : Int)) := by
        rw [h6, h7]
        norm_num
      rw [hbeq, hc31, hs0] at hemp
      exact absurd hemp (by decide)
    have hgq31 : CellGrid.grid_idx q ≠ CellGrid.grid_idx (x, 31) :=
      gq_ne_31 q x hq hx hqlt
    have hgb31 : CellGrid.grid_idx (belowWrap q) ≠ CellGrid.grid_idx (x, 31) := by
      intro hc
      have := grid_idx_eq_pos _ _ (inRange_belowWrap q) hx31 hc
      rw [hbwq] at this
      have h6 := congrArg Prod.fst this
      have h7 := congrArg Prod.snd this
      simp only at h6 h7
      exact hq30 (Prod.ext h6 (by omega))
    refine ⟨hwf4, hlen4, hhalo4, ?_, ?_, ?_⟩
    · rw [heq, cellAt_writeColor, cellAt_writeColor,
        cellAt_writeCell_ne _ _ _ _ _ _ (Or.inr hgb31),
        cellAt_writeCell_ne _ _ _ _ _ _ (Or.inr hgq31)]
      exact hc31
    · rw [heq, cellAt_writeColor, cellAt_writeColor,
        cellAt_writeCell_ne _ _ _ _ _ _ (Or.inl hAB),
        cellAt_writeCell_ne _ _ _ _ _ _ (Or.inl hAB)]
      exact hc0
    · by_cases hgb30 : CellGrid.grid_idx (belowWrap q) = CellGrid.grid_idx (x, 30)
      · right
        have hlen2 : (writeCell acc iA (CellGrid.grid_idx q)
            (cellAt acc iA (CellGrid.grid_idx (belowWrap q)))).length = acc.length :=
          length_writeCell ..
        have hcells2 : (lget (writeCell acc iA (CellGrid.grid_idx q)
            (cellAt acc iA (CellGrid.grid_idx (belowWrap q)))) iA default).grid.cells.length =
            (lget acc iA default).grid.cells.length := cells_length_writeCell ..
        have hclen : (lget acc iA default).grid.cells.length = 1024 := by
          have := (hwf (lget acc iA default) (lget_mem acc iA default hciA)).1
          simpa [NUM_CELLS_IN_CHUNK] using this
        rw [heq, cellAt_writeColor, cellAt_writeColor, ← hgb30,
          cellAt_writeCell_self _ _ _ _ (by omega)
            (by rw [hcells2, hclen]; exact grid_idx_lt _ (inRange_belowWrap q))]
      · have hgq30 : CellGrid.grid_idx q ≠ CellGrid.grid_idx (x, 30) := by
          intro hc
          exact hq30 (grid_idx_eq_pos _ _ hq hx30 hc)
        rw [heq, cellAt_writeColor, cellAt_writeColor,
          cellAt_writeCell_ne _ _ _ _ _ _ (Or.inr hgb30),
          cellAt_writeCell_ne _ _ _ _ _ _ (Or.inr hgq30)]
        exact hI3
  · -- move through the south halo link into chunk iB
    rw [hhalo] at hsome
    have hcjeq : cj = iB := by injection hsome with h; exact h.symm
    rw [hcjeq] at heq hemp hcj
    have hbwq : belowWrap q = (q.1, 0) := belowWrap_of_eq q hq hq2
    have hq1x : q.1 ≠ x := by
      intro hc
      exact hqne (Prod.ext hc hq2)
    have hgq31 : CellGrid.grid_idx q ≠ CellGrid.grid_idx (x, 31) := by
      intro hc
      exact hqne (grid_idx_eq_pos _ _ hq hx31 hc)
    have hgb0 : CellGrid.grid_idx (belowWrap q) ≠ CellGrid.grid_idx (x, 0) := by
      intro hc
      have := grid_idx_eq_pos _ _ (inRange_belowWrap q) hx0 hc
      rw [hbwq] at this
      exact hq1x (congrArg Prod.fst this)
    have hgq30 : CellGrid.grid_idx q ≠ CellGrid.grid_idx (x, 30) :=
      gq_ne_30 q x hq hx hq2
    refine ⟨hwf4, hlen4, hhalo4, ?_, ?_, ?_⟩
    · rw [heq, cellAt_writeColor, cellAt_writeColor,
        cellAt_writeCell_ne _ _ _ _ _ _ (Or.inl (fun hc => hAB hc.symm)),
        cellAt_writeCell_ne _ _ _ _ _ _ (Or.inr hgq31)]
      exact hc31
    · rw [heq, cellAt_writeColor, cellAt_writeColor,
        cellAt_writeCell_ne _ _ _ _ _ _ (Or.inr hgb0),
        cellAt_writeCell_ne _ _ _ _ _ _ (Or.inl hAB)]
      exact hc0
    · rw [heq, cellAt_writeColor, cellAt_writeColor,
        cellAt_writeCell_ne _ _ _ _ _ _ (Or.inl (fun hc => hAB hc.symm)),
        cellAt_writeCell_ne _ _ _ _ _ _ (Or.inr hgq30)]
      exact hI3

theorem tex_length_writeCell (cs : List Chunk) (k m i : Nat) (c : Cell) :
    (lget (writeCell cs k i c) m default).grid.texture_data.length =
      (lget cs m default).grid.texture_data.length := by
  by_cases hk : k < cs.length
  · by_cases hkm : k = m
    · subst hkm
      rw [lget_writeCell_self cs k i c hk]
    · rw [lget_writeCell_ne cs k m i c default hkm]
  · unfold writeCell
    rw [lset_oob _ _ _ (by omega)]

theorem halo_bound (cs : List Chunk) (i j : Nat) (hwf : WFchunks cs) (hi : i < cs.length)
    (hh : lget (lget cs i default).halo 6 none = some j) : j < cs.length := by
  obtain ⟨_, _, hh8, hb⟩ := hwf (lget cs i default) (lget_mem cs i default hi)
  have hmem : some j ∈ (lget cs i default).halo := by
    have := lget_mem (lget cs i default).halo 6 none (by omega)
    rw [hh] at this
    exact this
  exact hb _ hmem

theorem c3_key_step (iA iB tick : Nat) (x : Int) (s0 b0 : Cell) (n : Nat)
    (hAB : iA ≠ iB) (hx : 0 ≤ x ∧ x < 32) (hs0 : s0.material = Material.Sand)
    (hst0 : s0.last_processed_in_tick ≠ tick) (hb0 : b0.material = Material.Empty)
    (acc : List Chunk) (hP : c3Pre iA iB tick x s0 b0 n acc) :
    c3Post iA iB tick x s0 b0 n (Chunk.updateCell acc iA tick ((x : Int), (31 : Int))) := by
  obtain ⟨hwf, hlen, hhalo, hc31, hc0, hI3⟩ := hP
  have hx31 : inRange ((x : Int), (31 : Int)) := ⟨hx.1, hx.2, by omega, by omega⟩
  have hbw : belowWrap ((x : Int), (31 : Int)) = ((x : Int), (0 : Int)) :=
    belowWrap_of_eq _ hx31 rfl
  have hsand : (cellAt acc iA (CellGrid.grid_idx ((x : Int), (31 : Int)))).material =
      Material.Sand := by rw [hc31]; exact hs0
  have hstamp : (cellAt acc iA
      (CellGrid.grid_idx ((x : Int), (31 : Int)))).last_processed_in_tick ≠ tick := by
    rw [hc31]; exact hst0
  have hempty : (cellAt acc iB
      (CellGrid.grid_idx (belowWrap ((x : Int), (31 : Int))))).material =
      Material.Empty := by
    rw [hbw, hc0]; exact hb0
  have heq := updateCell_move_south acc iA iB tick ((x : Int), (31 : Int)) hwf hx31 rfl
    hsand hstamp hhalo hempty
  rw [hbw, hc31, hc0] at heq
  have hiA : iA < acc.length := by
    by_contra hciA
    rw [cellAt_oob_material acc iA _ hciA (grid_idx_lt _ hx31)] at hsand
    exact absurd hsand (by decide)
  have hiB : iB < acc.length := halo_bound acc iA iB hwf hiA hhalo
  have hclenA : (lget acc iA default).grid.cells.length = 1024 := by
    have := (hwf (lget acc iA default) (lget_mem acc iA default hiA)).1
    simpa [NUM_CELLS_IN_CHUNK] using this
  have hclenB : (lget acc iB default).grid.cells.length = 1024 := by
    have := (hwf (lget acc iB default) (lget_mem acc iB default hiB)).1
    simpa [NUM_CELLS_IN_CHUNK] using this
  have htlenA : (lget acc iA default).grid.texture_data.length = 4096 := by
    have := (hwf (lget acc iA default) (lget_mem acc iA default hiA)).2.1
    simpa [NUM_CELLS_IN_CHUNK] using this
  have htlenB : (lget acc iB default).grid.texture_data.length = 4096 := by
    have := (hwf (lget acc iB default) (lget_mem acc iB default hiB)).2.1
    simpa [NUM_CELLS_IN_CHUNK] using this
  have hg31 : CellGrid.grid_idx ((x : Int), (31 : Int)) < 1024 := grid_idx_lt _ hx31
  have hg0 : CellGrid.grid_idx ((x : Int), (0 : Int)) < 1024 :=
    grid_idx_lt _ ⟨hx.1, hx.2, by omega, by omega⟩
  have hg3130 : CellGrid.grid_idx ((x : Int), (31 : Int)) ≠
      CellGrid.grid_idx ((x : Int), (30 : Int)) :=
    gq_ne_30 _ x hx31 hx rfl
  have hwf4 : WFchunks (Chunk.updateCell acc iA tick ((x : Int), (31 : Int))) := by
    rw [heq]
    exact WF_writeColor _ _ _ _ (WF_writeColor _ _ _ _
      (WF_writeCell _ _ _ _ (WF_writeCell _ _ _ _ hwf)))
  have hlen4 : (Chunk.updateCell acc iA tick ((x : Int), (31 : Int))).length = n := by
    rw [heq, length_writeColor, length_writeColor, length_writeCell, length_writeCell]
    exact hlen
  have hhalo4 : lget (lget (Chunk.updateCell acc iA tick ((x : Int), (31 : Int)))
      iA default).halo 6 none = some iB := by
    rw [heq, halo_writeColor, halo_writeColor, halo_writeCell, halo_writeCell]
    exact hhalo
  refine ⟨hwf4, hlen4, hhalo4, ?_, ?_, ?_, ?_, ?_⟩
  · rw [heq, cellAt_writeColor, cellAt_writeColor,
      cellAt_writeCell_ne _ _ _ _ _ _ (Or.inl (fun hc => hAB hc.symm)),
      cellAt_writeCell_self _ _ _ _ hiA (by omega)]
  · rw [heq, cellAt_writeColor, cellAt_writeColor,
      cellAt_writeCell_self _ _ _ _ (by rw [length_writeCell]; omega)
        (by rw [cells_length_writeCell, hclenB]; omega)]
  · intro r hr
    have hco : 4 * CellGrid.grid_idx ((x : Int), (31 : Int)) + r =
        CellGrid.grid_idx ((x : Int), (31 : Int)) * 4 + r := by ring_nf
    rw [heq, hco,
      texAt_writeColor_ne _ _ _ _ _ _ (Or.inl (fun hc => hAB hc.symm)),
      texAt_writeColor_self _ _ _ _ _
        (by rw [length_writeCell, length_writeCell]; omega) hr
        (by rw [tex_length_writeCell, tex_length_writeCell, htlenA]; omega)]
  · intro r hr
    have hco : 4 * CellGrid.grid_idx ((x : Int), (0 : Int)) + r =
        CellGrid.grid_idx ((x : Int), (0 : Int)) * 4 + r := by ring_nf
    rw [heq, hco,
      texAt_writeColor_self _ _ _ _ _
        (by rw [length_writeColor, length_writeCell, length_writeCell]; omega) hr
        (by rw [tex_length_writeColor, tex_length_writeCell,
              tex_length_writeCell, htlenB]; omega)]
  · rcases hI3 with hI | hI
    · left
      rw [heq, cellAt_writeColor, cellAt_writeColor,
        cellAt_writeCell_ne _ _ _ _ _ _ (Or.inl (fun hc => hAB hc.symm)),
        cellAt_writeCell_ne _ _ _ _ _ _ (Or.inr hg3130)]
      exact hI
    · right
      rw [heq, cellAt_writeColor, cellAt_writeColor,
        cellAt_writeCell_ne _ _ _ _ _ _ (Or.inl (fun hc => hAB hc.symm)),
        cellAt_writeCell_ne _ _ _ _ _ _ (Or.inr hg3130)]
      exact hI

theorem c3_post_step (iA iB tick : Nat) (x : Int) (s0 b0 : Cell) (n : Nat)
    (hAB : iA ≠ iB) (hx : 0 ≤ x ∧ x < 32)
    (acc : List Chunk) (q : GridPos) (hq : inRange q) (hqne : q ≠ (x, 31))
    (hP : c3Post iA iB tick x s0 b0 n acc) :
    c3Post iA iB tick x s0 b0 n (Chunk.updateCell acc iA tick q) := by
  obtain ⟨hwf, hlen, hhalo, hc31, hc0, hTexA, hTexB, hI3⟩ := hP
  rcases updateCell_cases acc iA tick q hwf hq with h | ⟨hqs, hqt, hciA, cj, hcj, hres, hemp, heq⟩
  · rw [h]
    exact ⟨hwf, hlen, hhalo, hc31, hc0, hTexA, hTexB, hI3⟩
  have hx31 : inRange ((x : Int), (31 : Int)) := ⟨hx.1, hx.2, by omega, by omega⟩
  have hx30 : inRange ((x : Int), (30 : Int)) := ⟨hx.1, hx.2, by omega, by omega⟩
  have hx0 : inRange ((x : Int), (0 : Int)) := ⟨hx.1, hx.2, by omega, by omega⟩
  have hq30 : q ≠ ((x : Int), (30 : Int)) := by
    intro hc
    rw [hc] at hqs hqt
    rcases hI3 with h | h
    · exact h hqs
    · exact hqt h
  have hgq30 : CellGrid.grid_idx q ≠ CellGrid.grid_idx (x, 30) := by
    intro hc
    exact hq30 (grid_idx_eq_pos _ _ hq hx30 hc)
  have hwf4 : WFchunks (Chunk.updateCell acc iA tick q) := by
    rw [heq]
    exact WF_writeColor _ _ _ _ (WF_writeColor _ _ _ _
      (WF_writeCell _ _ _ _ (WF_writeCell _ _ _ _ hwf)))
  have hlen4 : (Chunk.updateCell acc iA tick q).length = n := by
    rw [heq, length_writeColor, length_writeColor, length_writeCell, length_writeCell]
    exact hlen
  have hhalo4 : lget (lget (Chunk.updateCell acc iA tick q) iA default).halo 6 none =
      some iB := by
    rw [heq, halo_writeColor, halo_writeColor, halo_writeCell, halo_writeCell]
    exact hhalo
  rcases hres with ⟨hqlt, hcjeq⟩ | ⟨hq2, hsome⟩
  · -- move inside the own grid
    rw [hcjeq] at heq hemp hcj
    have hbwq : belowWrap q = (q.1, q.2 + 1) := belowWrap_of_lt q hq hqlt
    have hgq31 : CellGrid.grid_idx q ≠ CellGrid.grid_idx (x, 31) :=
      gq_ne_31 q x hq hx hqlt
    have hgb31 : CellGrid.grid_idx (belowWrap q) ≠ CellGrid.grid_idx (x, 31) := by
      intro hc
      have := grid_idx_eq_pos _ _ (inRange_belowWrap q) hx31 hc
      rw [hbwq] at this
      have h6 := congrArg Prod.fst this
      have h7 := congrArg Prod.snd this
      simp only at h6 h7
      exact hq30 (Prod.ext h6 (by omega))
    refine ⟨hwf4, hlen4, hhalo4, ?_, ?_, ?_, ?_, ?_⟩
    · rw [heq, cellAt_writeColor, cellAt_writeColor,
        cellAt_writeCell_ne _ _ _ _ _ _ (Or.inr hgb31),
        cellAt_writeCell_ne _ _ _ _ _ _ (Or.inr hgq31)]
      exact hc31
    · rw [heq, cellAt_writeColor, cellAt_writeColor,
        cellAt_writeCell_ne _ _ _ _ _ _ (Or.inl hAB),
        cellAt_writeCell_ne _ _ _ _ _ _ (Or.inl hAB)]
      exact hc0
    · intro r hr
      rw [heq,
        texAt_writeColor_ne _ _ _ _ _ _ (Or.inr (by intro r2 h2; omega)),
        texAt_writeColor_ne _ _ _ _ _ _ (Or.inr (by intro r2 h2; omega)),
        texAt_writeCell, texAt_writeCell]
      exact hTexA r hr
    · intro r hr
      rw [heq,
        texAt_writeColor_ne _ _ _ _ _ _ (Or.inl hAB),
        texAt_writeColor_ne _ _ _ _ _ _ (Or.inl hAB),
        texAt_writeCell, texAt_writeCell]
      exact hTexB r hr
    · by_cases hgb30 : CellGrid.grid_idx (belowWrap q) = CellGrid.grid_idx (x, 30)
      · right
        have hcells2 : (lget (writeCell acc iA (CellGrid.grid_idx q)
            (cellAt acc iA (CellGrid.grid_idx (belowWrap q)))) iA default).grid.cells.length =
            (lget acc iA default).grid.cells.length := cells_length_writeCell ..
        have hclen : (lget acc iA default).grid.cells.length = 1024 := by
          have := (hwf (lget acc iA default) (lget_mem acc iA default hciA)).1
          simpa [NUM_CELLS_IN_CHUNK] using this
        rw [heq, cellAt_writeColor, cellAt_writeColor, ← hgb30,
          cellAt_writeCell_self _ _ _ _ (by rw [length_writeCell]; omega)
            (by rw [hcells2, hclen]; exact grid_idx_lt _ (inRange_belowWrap q))]
      · rw [heq, cellAt_writeColor, cellAt_writeColor,
          cellAt_writeCell_ne _ _ _ _ _ _ (Or.inr hgb30),
          cellAt_writeCell_ne _ _ _ _ _ _ (Or.inr hgq30)]
        exact hI3
  · -- move through the south halo link into chunk iB
    rw [hhalo] at hsome
    have hcjeq : cj = iB := by injection hsome with h; exact h.symm
    rw [hcjeq] at heq hemp hcj
    have hbwq : belowWrap q = (q.1, 0) := belowWrap_of_eq q hq hq2
    have hq1x : q.1 ≠ x := by
      intro hc
      exact hqne (Prod.ext hc hq2)
    have hgq31 : CellGrid.grid_idx q ≠ CellGrid.grid_idx (x, 31) := by
      intro hc
      exact hqne (grid_idx_eq_pos _ _ hq hx31 hc)
    have hgb0 : CellGrid.grid_idx (belowWrap q) ≠ CellGrid.grid_idx (x, 0) := by
      intro hc
      have := grid_idx_eq_pos _ _ (inRange_belowWrap q) hx0 hc
      rw [hbwq] at this
      exact hq1x (congrArg Prod.fst this)
    refine ⟨hwf4, hlen4, hhalo4, ?_, ?_, ?_, ?_, ?_⟩
    · rw [heq, cellAt_writeColor, cellAt_writeColor,
        cellAt_writeCell_ne _ _ _ _ _ _ (Or.inl (fun hc => hAB hc.symm)),
        cellAt_writeCell_ne _ _ _ _ _ _ (Or.inr hgq31)]
      exact hc31
    · rw [heq, cellAt_writeColor, cellAt_writeColor,
        cellAt_writeCell_ne _ _ _ _ _ _ (Or.inr hgb0),
        cellAt_writeCell_ne _ _ _ _ _ _ (Or.inl hAB)]
      exact hc0
    · intro r hr
      rw [heq,
        texAt_writeColor_ne _ _ _ _ _ _ (Or.inl (fun hc => hAB hc.symm)),
        texAt_writeColor_ne _ _ _ _ _ _ (Or.inr (by intro r2 h2; omega)),
        texAt_writeCell, texAt_writeCell]
      exact hTexA r hr
    · intro r hr
      rw [heq,
        texAt_writeColor_ne _ _ _ _ _ _ (Or.inr (by intro r2 h2; omega)),
        texAt_writeColor_ne _ _ _ _ _ _ (Or.inl hAB),
        texAt_writeCell, texAt_writeCell]
      exact hTexB r hr
    · rw [heq, cellAt_writeColor, cellAt_writeColor,
        cellAt_writeCell_ne _ _ _ _ _ _ (Or.inl (fun hc => hAB hc.symm)),
        cellAt_writeCell_ne _ _ _ _ _ _ (Or.inr hgq30)]
      exact hI3

theorem c3_fall (cs : List Chunk) (tick iA iB : Nat) (x : Int)
    (hwf : WFchunks cs) (hAB : iA ≠ iB) (hx : 0 ≤ x ∧ x < 32)
    (hhalo : lget (lget cs iA default).halo 6 none = some iB)
    (hs : (cellAt cs iA (CellGrid.grid_idx (x, 31))).material = Material.Sand)
    (hstamp : (cellAt cs iA (CellGrid.grid_idx (x, 31))).last_processed_in_tick ≠ tick)
    (hb : (cellAt cs iB (CellGrid.grid_idx (x, 0))).material = Material.Empty)
    (hI3 : (cellAt cs iA (CellGrid.grid_idx (x, 30))).material ≠ Material.Sand ∨
      (cellAt cs iA (CellGrid.grid_idx (x, 30))).last_processed_in_tick = tick) :
    c3Post iA iB tick x (cellAt cs iA (CellGrid.grid_idx (x, 31)))
      (cellAt cs iB (CellGrid.grid_idx (x, 0))) cs.length (Chunk.update cs iA tick) := by
  have hx31 : inRange ((x : Int), (31 : Int)) := ⟨hx.1, hx.2, by omega, by omega⟩
  have hmem : ((x : Int), (31 : Int)) ∈ Chunk.visitOrder tick :=
    (mem_visitOrder tick _).mpr hx31
  obtain ⟨l1, l2, hsplit⟩ := List.append_of_mem hmem
  have hnd : (Chunk.visitOrder tick).Nodup := nodup_visitOrder tick
  rw [hsplit] at hnd
  have hnd2 := List.nodup_middle.mp hnd
  have hnotin : ((x : Int), (31 : Int)) ∉ l1 ++ l2 := (List.nodup_cons.mp hnd2).1
  have hnot1 : ((x : Int), (31 : Int)) ∉ l1 :=
    fun hc => hnotin (List.mem_append.mpr (Or.inl hc))
  have hnot2 : ((x : Int), (31 : Int)) ∉ l2 :=
    fun hc => hnotin (List.mem_append.mpr (Or.inr hc))
  have hmemOrig : ∀ q, q ∈ l1 ∨ q ∈ l2 → inRange q := by
    intro q hq
    refine (mem_visitOrder tick q).mp ?_
    rw [hsplit]
    rcases hq with h | h
    · exact List.mem_append.mpr (Or.inl h)
    · exact List.mem_append.mpr (Or.inr (List.mem_cons_of_mem _ h))
  unfold Chunk.update
  rw [hsplit, List.foldl_append, List.foldl_cons]
  have hpre : c3Pre iA iB tick x (cellAt cs iA (CellGrid.grid_idx (x, 31)))
      (cellAt cs iB (CellGrid.grid_idx (x, 0))) cs.length
      (l1.foldl (fun acc p => Chunk.updateCell acc iA tick p) cs) :=
    foldl_pres (c3Pre iA iB tick x (cellAt cs iA (CellGrid.grid_idx (x, 31)))
        (cellAt cs iB (CellGrid.grid_idx (x, 0))) cs.length)
      (fun acc p => Chunk.updateCell acc iA tick p) l1
      (fun acc q hqm hP => c3_pre_step iA iB tick x _ _ cs.length hAB hx hs acc q
        (hmemOrig q (Or.inl hqm)) (fun hc => hnot1 (hc ▸ hqm)) hP)
      cs ⟨hwf, rfl, hhalo, rfl, rfl, hI3⟩
  have hpost := c3_key_step iA iB tick x _ _ cs.length hAB hx hs hstamp hb _ hpre
  exact foldl_pres (c3Post iA iB tick x (cellAt cs iA (CellGrid.grid_idx (x, 31)))
      (cellAt cs iB (CellGrid.grid_idx (x, 0))) cs.length)
    (fun acc p => Chunk.updateCell acc iA tick p) l2
    (fun acc q hqm hP => c3_post_step iA iB tick x _ _ cs.length hAB hx acc q
      (hmemOrig q (Or.inr hqm)) (fun hc => hnot2 (hc ▸ hqm)) hP)
    _ hpost

/-- C3 (amended): cross-chunk fall.  For a Sand cell at local (x, 31) of
chunk iA whose south halo entry points to chunk iB, where iB's cell at
local (x, 0) is Empty, the Sand cell is not yet stamped with the current
tick, and additionally the cell at (x, 30) of iA cannot move this tick
(it is not Sand, or it is already stamped), Chunk::update(tick) on iA
puts the Sand cell, stamped with the tick, at iB's local (x, 0), leaves
iA's (x, 31) Empty, and writes Sand's color into iB's texture buffer and
the south neighbour's previous (Empty) color into iA's texture buffer at
the corresponding 4-byte offsets.  The extra (x, 30) hypothesis is
needed: without it, on a tick with a reversed y sweep the Sand cell at
(x, 30) is visited after (x, 31) and refills the vacated cell (see the
counterexample). -/
theorem c3_cross_chunk_fall_amended (cs : List Chunk) (tick iA iB : Nat) (x : Int)
    (hwf : WFchunks cs) (hAB : iA ≠ iB) (hx : 0 ≤ x ∧ x < 32)
    (hhalo : lget (lget cs iA default).halo 6 none = some iB)
    (hs : (cellAt cs iA (CellGrid.grid_idx (x, 31))).material = Material.Sand)
    (hstamp : (cellAt cs iA (CellGrid.grid_idx (x, 31))).last_processed_in_tick ≠ tick)
    (hb : (cellAt cs iB (CellGrid.grid_idx (x, 0))).material = Material.Empty)
    (hI3 : (cellAt cs iA (CellGrid.grid_idx (x, 30))).material ≠ Material.Sand ∨
      (cellAt cs iA (CellGrid.grid_idx (x, 30))).last_processed_in_tick = tick) :
    cellAt (Chunk.update cs iA tick) iB (CellGrid.grid_idx (x, 0)) =
      { cellAt cs iA (CellGrid.grid_idx (x, 31)) with last_processed_in_tick := tick } ∧
    (cellAt (Chunk.update cs iA tick) iA (CellGrid.grid_idx (x, 31))).material =
      Material.Empty ∧
    (∀ r, r < 4 → texAt (Chunk.update cs iA tick) iB (4 * CellGrid.grid_idx (x, 0) + r) =
      colorByte Material.Sand.color r) ∧
    (∀ r, r < 4 → texAt (Chunk.update cs iA tick) iA (4 * CellGrid.grid_idx (x, 31) + r) =
      colorByte Material.Empty.color r) := by
  obtain ⟨_, _, _, h4, h5, h6, h7, _⟩ :=
    c3_fall cs tick iA iB x hwf hAB hx hhalo hs hstamp hb hI3
  refine ⟨h5, ?_, ?_, ?_⟩
  · rw [h4]
    exact hb
  · intro r hr
    have h9 := h7 r hr
    rw [hs] at h9
    exact h9
  · intro r hr
    have h9 := h6 r hr
    rw [hb] at h9
    exact h9


theorem c3Wit_WF : WFchunks [c3WitA, c3WitB] := by
  intro c hc
  rcases List.mem_cons.mp hc with hcl | hc2
  · subst hcl
    refine ⟨?_, ?_, ?_, ?_⟩
    · show (lset (List.replicate 1024 (Cell.new .Empty)) 992 (Cell.new .Sand)).length =
        NUM_CELLS_IN_CHUNK
      rw [length_lset, List.length_replicate]
      rfl
    · show (List.replicate 4096 (0 : Nat)).length = 4 * NUM_CELLS_IN_CHUNK
      rw [List.length_replicate]
      rfl
    · show (lset (List.replicate 8 (none : Option Nat)) 6 (some 1)).length = 8
      rw [length_lset, List.length_replicate]
    · intro h hh
      rcases mem_lset _ _ _ _ hh with h1 | h1
      · subst h1
        show (1 : Nat) < 2
        omega
      · have : h = none := List.eq_of_mem_replicate h1
        subst this
        trivial
  · have hcl : c = c3WitB := by simpa using hc2
    subst hcl
    refine ⟨?_, ?_, ?_, ?_⟩
    · show (List.replicate 1024 (Cell.new .Empty)).length = NUM_CELLS_IN_CHUNK
      rw [List.length_replicate]
      rfl
    · show (List.replicate 4096 (0 : Nat)).length = 4 * NUM_CELLS_IN_CHUNK
      rw [List.length_replicate]
      rfl
    · show (List.replicate 8 (none : Option Nat)).length = 8
      rw [List.length_replicate]
    · intro h hh
      have : h = none := List.eq_of_mem_replicate hh
      subst this
      trivial

theorem c3Wit_halo : lget (lget [c3WitA, c3WitB] 0 default).halo 6 none = some 1 := by
  show lget (lset (List.replicate 8 none) 6 (some 1)) 6 none = some 1
  rw [lget_lset_eq _ _ _ _ (by rw [List.length_replicate]; omega)]

theorem c3Wit_sandCell :
    cellAt [c3WitA, c3WitB] 0 (CellGrid.grid_idx (0, 31)) = Cell.new .Sand := by
  show lget (lset (List.replicate 1024 (Cell.new .Empty)) 992 (Cell.new .Sand))
    (CellGrid.grid_idx (0, 31)) default = Cell.new .Sand
  have hidx : CellGrid.grid_idx (0, 31) = 992 := rfl
  rw [hidx, lget_lset_eq _ _ _ _ (by rw [List.length_replicate]; omega)]

theorem c3Wit_emptyCell :
    cellAt [c3WitA, c3WitB] 1 (CellGrid.grid_idx (0, 0)) = Cell.new .Empty := by
  show lget (List.replicate 1024 (Cell.new .Empty)) (CellGrid.grid_idx (0, 0)) default =
    Cell.new .Empty
  have hidx : CellGrid.grid_idx (0, 0) = 0 := rfl
  rw [hidx, lget_replicate _ _ _ _ (by omega)]

theorem c3Wit_30Cell :
    cellAt [c3WitA, c3WitB] 0 (CellGrid.grid_idx (0, 30)) = Cell.new .Empty := by
  show lget (lset (List.replicate 1024 (Cell.new .Empty)) 992 (Cell.new .Sand))
    (CellGrid.grid_idx (0, 30)) default = Cell.new .Empty
  have hidx : CellGrid.grid_idx (0, 30) = 960 := rfl
  rw [hidx, lget_lset_ne _ _ _ _ _ (by omega),
    lget_replicate _ _ _ _ (by omega)]

/-- Witness for C3 (amended) at a concrete two-chunk state and tick 1. -/
theorem c3_cross_chunk_fall_amended_witness :
    cellAt (Chunk.update [c3WitA, c3WitB] 0 1) 1 (CellGrid.grid_idx (0, 0)) =
      { cellAt [c3WitA, c3WitB] 0 (CellGrid.grid_idx (0, 31)) with
          last_processed_in_tick := 1 } ∧
    (cellAt (Chunk.update [c3WitA, c3WitB] 0 1) 0 (CellGrid.grid_idx (0, 31))).material =
      Material.Empty :=
  have h := c3_cross_chunk_fall_amended [c3WitA, c3WitB] 1 0 1 0 c3Wit_WF (by decide)
    (by norm_num) c3Wit_halo (by rw [c3Wit_sandCell]; rfl) (by rw [c3Wit_sandCell]; decide)
    (by rw [c3Wit_emptyCell]; rfl) (Or.inl (by rw [c3Wit_30Cell]; decide))
  ⟨h.1, h.2.1⟩

theorem updateCell_skip (cs : List Chunk) (ci tick : Nat) (p : GridPos)
    (h : (cellAt cs ci (CellGrid.grid_idx p)).material ≠ Material.Sand ∨
      (cellAt cs ci (CellGrid.grid_idx p)).last_processed_in_tick = tick) :
    Chunk.updateCell cs ci tick p = cs := by
  by_cases h1 : (cellAt cs ci (CellGrid.grid_idx p)).last_processed_in_tick = tick
  · simp only [Chunk.updateCell, get_cell_cellAt]
    rw [if_pos h1]
  · have h2 : (cellAt cs ci (CellGrid.grid_idx p)).material ≠ Material.Sand :=
      h.resolve_right h1
    simp only [Chunk.updateCell, get_cell_cellAt]
    rw [if_neg h1, if_neg h2]

theorem cells_length_writeColor (cs : List Chunk) (k m i : Nat) (col : CellColor) :
    (lget (writeColor cs k i col) m default).grid.cells.length =
      (lget cs m default).grid.cells.length := by
  by_cases hk : k < cs.length
  · by_cases hkm : k = m
    · subst hkm
      rw [lget_writeColor_self cs k i col hk]
      rfl
    · rw [lget_writeColor_ne cs k m i col default hkm]
  · unfold writeColor
    rw [lset_oob _ _ _ (by omega)]


theorem c3Cex_WF : WFchunks [c3CexA, c3WitB] := by
  intro c hc
  rcases List.mem_cons.mp hc with hcl | hc2
  · subst hcl
    refine ⟨?_, ?_, ?_, ?_⟩
    · show (lset (lset (List.replicate 1024 (Cell.new .Empty)) 960 (Cell.new .Sand)) 992
        (Cell.new .Sand)).length = NUM_CELLS_IN_CHUNK
      rw [length_lset, length_lset, List.length_replicate]
      rfl
    · show (List.replicate 4096 (0 : Nat)).length = 4 * NUM_CELLS_IN_CHUNK
      rw [List.length_replicate]
      rfl
    · show (lset (List.replicate 8 (none : Option Nat)) 6 (some 1)).length = 8
      rw [length_lset, List.length_replicate]
    · intro h hh
      rcases mem_lset _ _ _ _ hh with h1 | h1
      · subst h1
        show (1 : Nat) < 2
        omega
      · have : h = none := List.eq_of_mem_replicate h1
        subst this
        trivial
  · have hcl : c = c3WitB := by simpa using hc2
    subst hcl
    refine ⟨?_, ?_, ?_, ?_⟩
    · show (List.replicate 1024 (Cell.new .Empty)).length = NUM_CELLS_IN_CHUNK
      rw [List.length_replicate]
      rfl
    · show (List.replicate 4096 (0 : Nat)).length = 4 * NUM_CELLS_IN_CHUNK
      rw [List.length_replicate]
      rfl
    · show (List.replicate 8 (none : Option Nat)).length = 8
      rw [List.length_replicate]
    · intro h hh
      have : h = none := List.eq_of_mem_replicate hh
      subst this
      trivial

theorem c3Cex_halo : lget (lget [c3CexA, c3WitB] 0 default).halo 6 none = some 1 := by
  show lget (lset (List.replicate 8 none) 6 (some 1)) 6 none = some 1
  rw [lget_lset_eq _ _ _ _ (by rw [List.length_replicate]; omega)]

theorem c3Cex_cell31 :
    cellAt [c3CexA, c3WitB] 0 (CellGrid.grid_idx (0, 31)) = Cell.new .Sand := by
  show lget (lset (lset (List.replicate 1024 (Cell.new .Empty)) 960 (Cell.new .Sand)) 992
    (Cell.new .Sand)) (CellGrid.grid_idx (0, 31)) default = Cell.new .Sand
  have hidx : CellGrid.grid_idx (0, 31) = 992 := rfl
  rw [hidx, lget_lset_eq _ _ _ _ (by rw [length_lset, List.length_replicate]; omega)]

theorem c3Cex_cell30 :
    cellAt [c3CexA, c3WitB] 0 (CellGrid.grid_idx (0, 30)) = Cell.new .Sand := by
  show lget (lset (lset (List.replicate 1024 (Cell.new .Empty)) 960 (Cell.new .Sand)) 992
    (Cell.new .Sand)) (CellGrid.grid_idx (0, 30)) default = Cell.new .Sand
  have hidx : CellGrid.grid_idx (0, 30) = 960 := rfl
  rw [hidx, lget_lset_ne _ _ _ _ _ (by omega),
    lget_lset_eq _ _ _ _ (by rw [List.length_replicate]; omega)]

theorem c3Cex_cell00B :
    cellAt [c3CexA, c3WitB] 1 (CellGrid.grid_idx (0, 0)) = Cell.new .Empty := by
  show lget (List.replicate 1024 (Cell.new .Empty)) (CellGrid.grid_idx (0, 0)) default =
    Cell.new .Empty
  have hidx : CellGrid.grid_idx (0, 0) = 0 := rfl
  rw [hidx, lget_replicate _ _ _ _ (by omega)]

theorem c3Cex_other (j : Nat) (h1 : j < 1024) (h2 : j ≠ 960) (h3 : j ≠ 992) :
    cellAt [c3CexA, c3WitB] 0 j = Cell.new .Empty := by
  show lget (lset (lset (List.replicate 1024 (Cell.new .Empty)) 960 (Cell.new .Sand)) 992
    (Cell.new .Sand)) j default = Cell.new .Empty
  rw [lget_lset_ne _ _ _ _ _ (by omega), lget_lset_ne _ _ _ _ _ (by omega),
    lget_replicate _ _ _ _ (by omega)]

theorem c3Cex_tail31_mem : ∀ q ∈ c3Tail31, q.2 = 31 ∧ 1 ≤ q.1 ∧ q.1 < 32 := by decide

theorem c3Cex_take33 : (Chunk.visitOrder 2).take 33 =
    (((0 : Int), (31 : Int)) :: c3Tail31) ++ [((0 : Int), (30 : Int))] := by decide

set_option maxRecDepth 4000 in
/-- C3 counterexample: at the concrete two-chunk state with Sand at local
(0, 31) and (0, 30) of chunk 0, the south halo pointing to the empty chunk
1, and tick 2, every hypothesis of the original cross-chunk-fall claim
holds (well-formed state, south link, bottom-row Sand not yet stamped,
Empty target cell), yet after Chunk::update the cell at (0, 31) of chunk 0
is Sand again, not Empty: tick 2 reverses the y sweep, so the Sand at
(0, 30) is visited after (0, 31) and falls into the just-vacated cell. -/
theorem c3_cross_chunk_fall_cex :
    WFchunks [c3CexA, c3WitB] ∧
    lget (lget [c3CexA, c3WitB] 0 default).halo 6 none = some 1 ∧
    (cellAt [c3CexA, c3WitB] 0 (CellGrid.grid_idx (0, 31))).material = Material.Sand ∧
    (cellAt [c3CexA, c3WitB] 0 (CellGrid.grid_idx (0, 31))).last_processed_in_tick ≠ 2 ∧
    (cellAt [c3CexA, c3WitB] 1 (CellGrid.grid_idx (0, 0))).material = Material.Empty ∧
    (cellAt (Chunk.update [c3CexA, c3WitB] 0 2) 0 (CellGrid.grid_idx (0, 31))).material =
      Material.Sand := by
  refine ⟨c3Cex_WF, c3Cex_halo, by rw [c3Cex_cell31]; rfl, by rw [c3Cex_cell31]; decide,
    by rw [c3Cex_cell00B]; rfl, ?_⟩
  have hwf0 := c3Cex_WF
  have hbw31 : belowWrap ((0 : Int), (31 : Int)) = ((0 : Int), (0 : Int)) := by decide
  have hbw30 : belowWrap ((0 : Int), (30 : Int)) = ((0 : Int), (31 : Int)) := by decide
  have hg31 : CellGrid.grid_idx ((0 : Int), (31 : Int)) = 992 := rfl
  have hg30 : CellGrid.grid_idx ((0 : Int), (30 : Int)) = 960 := rfl
  have hg00 : CellGrid.grid_idx ((0 : Int), (0 : Int)) = 0 := rfl
  have heq1 := updateCell_move_south [c3CexA, c3WitB] 0 1 2 ((0 : Int), (31 : Int)) hwf0
    (by decide) rfl (by rw [c3Cex_cell31]; rfl) (by rw [c3Cex_cell31]; decide) c3Cex_halo
    (by rw [hbw31, c3Cex_cell00B]; rfl)
  rw [hbw31, c3Cex_cell31, c3Cex_cell00B, hg31, hg00] at heq1
  have hlenU1 : (Chunk.updateCell [c3CexA, c3WitB] 0 2 ((0 : Int), (31 : Int))).length = 2 := by
    rw [heq1, length_writeColor, length_writeColor, length_writeCell, length_writeCell]
    rfl
  have hcells0 : (lget [c3CexA, c3WitB] 0 default).grid.cells.length = 1024 := by
    show (lset (lset (List.replicate 1024 (Cell.new .Empty)) 960 (Cell.new .Sand)) 992
      (Cell.new .Sand)).length = 1024
    rw [length_lset, length_lset, List.length_replicate]
  have hcellsU1 : (lget (Chunk.updateCell [c3CexA, c3WitB] 0 2 ((0 : Int), (31 : Int))) 0
      default).grid.cells.length = 1024 := by
    rw [heq1, cells_length_writeColor, cells_length_writeColor, cells_length_writeCell,
      cells_length_writeCell]
    exact hcells0
  have hc31U1 : cellAt (Chunk.updateCell [c3CexA, c3WitB] 0 2 ((0 : Int), (31 : Int)))
      0 992 = Cell.new .Empty := by
    rw [heq1, cellAt_writeColor, cellAt_writeColor,
      cellAt_writeCell_ne _ _ _ _ _ _ (Or.inl (by decide)),
      cellAt_writeCell_self _ _ _ _ (by decide) (by rw [hcells0]; omega)]
  have hcOtherU1 : ∀ j, j < 1024 → j ≠ 960 → j ≠ 992 →
      cellAt (Chunk.updateCell [c3CexA, c3WitB] 0 2 ((0 : Int), (31 : Int))) 0 j =
      Cell.new .Empty := by
    intro j h1 h2 h3
    rw [heq1, cellAt_writeColor, cellAt_writeColor,
      cellAt_writeCell_ne _ _ _ _ _ _ (Or.inl (by decide)),
      cellAt_writeCell_ne _ _ _ _ _ _ (Or.inr (by omega))]
    exact c3Cex_other j h1 h2 h3
  have hc30U1 : cellAt (Chunk.updateCell [c3CexA, c3WitB] 0 2 ((0 : Int), (31 : Int))) 0
      (CellGrid.grid_idx ((0 : Int), (30 : Int))) = Cell.new .Sand := by
    rw [hg30, heq1, cellAt_writeColor, cellAt_writeColor,
      cellAt_writeCell_ne _ _ _ _ _ _ (Or.inl (by decide)),
      cellAt_writeCell_ne _ _ _ _ _ _ (Or.inr (by omega))]
    have h5 := c3Cex_cell30
    rw [hg30] at h5
    exact h5
  have hwfU1 : WFchunks (Chunk.updateCell [c3CexA, c3WitB] 0 2 ((0 : Int), (31 : Int))) := by
    rw [heq1]
    exact WF_writeColor _ _ _ _ (WF_writeColor _ _ _ _ (WF_writeCell _ _ _ _
      (WF_writeCell _ _ _ _ hwf0)))
  have heq2 := updateCell_move_own
    (Chunk.updateCell [c3CexA, c3WitB] 0 2 ((0 : Int), (31 : Int))) 0 2
    ((0 : Int), (30 : Int)) hwfU1 (by decide) (by decide)
    (by rw [hc30U1]; rfl) (by rw [hc30U1]; decide)
    (by rw [hbw30, hg31, hc31U1]; rfl)
  rw [hbw30, hc30U1, hg31, hc31U1, hg30] at heq2
  have hsplit : Chunk.visitOrder 2 =
      (((0 : Int), (31 : Int)) :: c3Tail31) ++
        ((0 : Int), (30 : Int)) :: (Chunk.visitOrder 2).drop 33 := by
    conv_lhs => rw [← List.take_append_drop 33 (Chunk.visitOrder 2)]
    rw [c3Cex_take33, List.append_assoc]
    rfl
  have hnd : ((((0 : Int), (31 : Int)) :: c3Tail31) ++
      ((0 : Int), (30 : Int)) :: (Chunk.visitOrder 2).drop 33).Nodup := by
    rw [← hsplit]
    exact nodup_visitOrder 2
  have hnd2 : (((0 : Int), (31 : Int)) :: (c3Tail31 ++
      ((0 : Int), (30 : Int)) :: (Chunk.visitOrder 2).drop 33)).Nodup := hnd
  have h31notin : ((0 : Int), (31 : Int)) ∉ c3Tail31 ++
      ((0 : Int), (30 : Int)) :: (Chunk.visitOrder 2).drop 33 :=
    (List.nodup_cons.mp hnd2).1
  have h30notin : ((0 : Int), (30 : Int)) ∉ (Chunk.visitOrder 2).drop 33 :=
    (List.nodup_cons.mp ((List.nodup_cons.mp hnd2).2.of_append_right)).1
  have h31notinD : ((0 : Int), (31 : Int)) ∉ (Chunk.visitOrder 2).drop 33 := by
    intro hc
    exact h31notin (List.mem_append.mpr (Or.inr (List.mem_cons_of_mem _ hc)))
  have step1 : ∀ (acc : List Chunk) (q : GridPos), q ∈ c3Tail31 →
      acc = Chunk.updateCell [c3CexA, c3WitB] 0 2 ((0 : Int), (31 : Int)) →
      Chunk.updateCell acc 0 2 q =
        Chunk.updateCell [c3CexA, c3WitB] 0 2 ((0 : Int), (31 : Int)) := by
    intro acc q hqm hacc
    subst hacc
    apply updateCell_skip
    left
    obtain ⟨hq2, hq1a, hq1b⟩ := c3Cex_tail31_mem q hqm
    have hgq : CellGrid.grid_idx q = q.1.toNat + 992 := by
      unfold CellGrid.grid_idx
      omega
    rw [hgq, hcOtherU1 (q.1.toNat + 992) (by omega) (by omega) (by omega)]
    decide
  have hA : (((0 : Int), (31 : Int)) :: c3Tail31).foldl
      (fun acc p => Chunk.updateCell acc 0 2 p) [c3CexA, c3WitB] =
      Chunk.updateCell [c3CexA, c3WitB] 0 2 ((0 : Int), (31 : Int)) := by
    rw [List.foldl_cons]
    exact foldl_pres
      (fun acc => acc = Chunk.updateCell [c3CexA, c3WitB] 0 2 ((0 : Int), (31 : Int)))
      (fun acc p => Chunk.updateCell acc 0 2 p) c3Tail31 step1 _ rfl
  have hcOtherU2 : ∀ j, j < 1024 → j ≠ 960 → j ≠ 992 →
      cellAt (Chunk.updateCell
        (Chunk.updateCell [c3CexA, c3WitB] 0 2 ((0 : Int), (31 : Int))) 0 2
        ((0 : Int), (30 : Int))) 0 j = Cell.new .Empty := by
    intro j h1 h2 h3
    rw [heq2, cellAt_writeColor, cellAt_writeColor,
      cellAt_writeCell_ne _ _ _ _ _ _ (Or.inr (by omega)),
      cellAt_writeCell_ne _ _ _ _ _ _ (Or.inr (by omega))]
    exact hcOtherU1 j h1 h2 h3
  have hc992U2 : cellAt (Chunk.updateCell
      (Chunk.updateCell [c3CexA, c3WitB] 0 2 ((0 : Int), (31 : Int))) 0 2
      ((0 : Int), (30 : Int))) 0 992 =
      { Cell.new Material.Sand with last_processed_in_tick := 2 } := by
    rw [heq2, cellAt_writeColor, cellAt_writeColor,
      cellAt_writeCell_self _ _ _ _ (by rw [length_writeCell, hlenU1]; omega)
        (by rw [cells_length_writeCell, hcellsU1]; omega)]
  have step2 : ∀ (acc : List Chunk) (q : GridPos), q ∈ (Chunk.visitOrder 2).drop 33 →
      acc = Chunk.updateCell
        (Chunk.updateCell [c3CexA, c3WitB] 0 2 ((0 : Int), (31 : Int))) 0 2
        ((0 : Int), (30 : Int)) →
      Chunk.updateCell acc 0 2 q = Chunk.updateCell
        (Chunk.updateCell [c3CexA, c3WitB] 0 2 ((0 : Int), (31 : Int))) 0 2
        ((0 : Int), (30 : Int)) := by
    intro acc q hqm hacc
    subst hacc
    apply updateCell_skip
    have hqv : q ∈ Chunk.visitOrder 2 := List.mem_of_mem_drop hqm
    have hqr : inRange q := (mem_visitOrder 2 q).mp hqv
    have hq31 : q ≠ ((0 : Int), (31 : Int)) := fun hc => h31notinD (hc ▸ hqm)
    have hq30 : q ≠ ((0 : Int), (30 : Int)) := fun hc => h30notin (hc ▸ hqm)
    by_cases hgq992 : CellGrid.grid_idx q = 992
    · exact absurd (grid_idx_inj q _ hqr (by decide) (by rw [hgq992, hg31])) hq31
    · left
      have hgq960 : CellGrid.grid_idx q ≠ 960 := by
        intro hc
        exact hq30 (grid_idx_inj q _ hqr (by decide) (by rw [hc, hg30]))
      rw [hcOtherU2 (CellGrid.grid_idx q) (grid_idx_lt q hqr) hgq960 hgq992]
      decide
  have hstate : Chunk.update [c3CexA, c3WitB] 0 2 = Chunk.updateCell
      (Chunk.updateCell [c3CexA, c3WitB] 0 2 ((0 : Int), (31 : Int))) 0 2
      ((0 : Int), (30 : Int)) := by
    unfold Chunk.update
    rw [hsplit, List.foldl_append, hA, List.foldl_cons]
    exact foldl_pres
      (fun acc => acc = Chunk.updateCell
        (Chunk.updateCell [c3CexA, c3WitB] 0 2 ((0 : Int), (31 : Int))) 0 2
        ((0 : Int), (30 : Int)))
      (fun acc p => Chunk.updateCell acc 0 2 p) ((Chunk.visitOrder 2).drop 33) step2 _ rfl
  have hgoal : CellGrid.grid_idx ((0 : Int), (31 : Int)) = 992 := hg31
  rw [hstate, hgoal, hc992U2]
  rfl


theorem lget_set_color_at (g : CellGrid) (idx r : Nat) (col : CellColor) (hr : r < 4)
    (hlen : idx * 4 + 3 < g.texture_data.length) :
    lget (g.set_color_at_grididx idx col).texture_data (idx * 4 + r) 0 = colorByte col r := by
  show lget (lset (lset (lset (lset g.texture_data (idx * 4) col.red) (idx * 4 + 1) col.green)
    (idx * 4 + 2) col.blue) (idx * 4 + 3) col.alpha) (idx * 4 + r) 0 = colorByte col r
  interval_cases r
  · rw [lget_lset_ne _ _ _ _ _ (by omega), lget_lset_ne _ _ _ _ _ (by omega),
      lget_lset_ne _ _ _ _ _ (by omega)]
    show lget (lset _ (idx * 4) _) (idx * 4 + 0) 0 = _
    rw [Nat.add_zero, lget_lset_eq _ _ _ _ (by omega)]
    rfl
  · rw [lget_lset_ne _ _ _ _ _ (by omega), lget_lset_ne _ _ _ _ _ (by omega),
      lget_lset_eq _ _ _ _ (by simp [length_lset]; omega)]
    rfl
  · rw [lget_lset_ne _ _ _ _ _ (by omega),
      lget_lset_eq _ _ _ _ (by simp [length_lset]; omega)]
    rfl
  · rw [lget_lset_eq _ _ _ _ (by simp [length_lset]; omega)]
    rfl

theorem updateCell_syncCC (cs : List Chunk) (ci tick : Nat) (q : GridPos)
    (hwf : WFchunks cs) (hq : inRange q) (hS : syncedCC cs) :
    syncedCC (Chunk.updateCell cs ci tick q) := by
  rcases updateCell_cases cs ci tick q hwf hq with h | ⟨hqs, hqt, hciA, cj, hcj, hres, hemp, heq⟩
  · rw [h]
    exact hS
  have hgqlt : CellGrid.grid_idx q < 1024 := grid_idx_lt q hq
  have hgblt : CellGrid.grid_idx (belowWrap q) < 1024 := grid_idx_lt _ (inRange_belowWrap q)
  have hgne : CellGrid.grid_idx q ≠ CellGrid.grid_idx (belowWrap q) := by
    intro hc
    have h5 := grid_idx_inj _ _ hq (inRange_belowWrap q) hc
    rcases hres with ⟨hqlt, _⟩ | ⟨hq2, _⟩
    · rw [belowWrap_of_lt q hq hqlt] at h5
      have h6 := congrArg Prod.snd h5
      simp only at h6
      omega
    · rw [belowWrap_of_eq q hq hq2] at h5
      have h6 := congrArg Prod.snd h5
      simp only at h6
      omega
  have hcellsA : (lget cs ci default).grid.cells.length = 1024 := by
    have := (hwf (lget cs ci default) (lget_mem cs ci default hciA)).1
    simpa [NUM_CELLS_IN_CHUNK] using this
  have hcellsB : (lget cs cj default).grid.cells.length = 1024 := by
    have := (hwf (lget cs cj default) (lget_mem cs cj default hcj)).1
    simpa [NUM_CELLS_IN_CHUNK] using this
  have htexA : (lget cs ci default).grid.texture_data.length = 4096 := by
    have := (hwf (lget cs ci default) (lget_mem cs ci default hciA)).2.1
    simpa [NUM_CELLS_IN_CHUNK] using this
  have htexB : (lget cs cj default).grid.texture_data.length = 4096 := by
    have := (hwf (lget cs cj default) (lget_mem cs cj default hcj)).2.1
    simpa [NUM_CELLS_IN_CHUNK] using this
  have hlen4 : (Chunk.updateCell cs ci tick q).length = cs.length := by
    rw [heq, length_writeColor, length_writeColor, length_writeCell, length_writeCell]
  intro k hk
  rw [hlen4] at hk
  constructor
  · intro i hi r hr
    by_cases hA : k = cj ∧ i = CellGrid.grid_idx (belowWrap q)
    · obtain ⟨h1, h2⟩ := hA
      subst h1
      subst h2
      rw [heq, texAt_writeColor_self _ _ _ _ _
          (by rw [length_writeColor, length_writeCell, length_writeCell]; omega) hr
          (by rw [tex_length_writeColor, tex_length_writeCell, tex_length_writeCell, htexB]
              omega),
        cellAt_writeColor, cellAt_writeColor,
        cellAt_writeCell_self _ _ _ _ (by rw [length_writeCell]; omega)
          (by rw [cells_length_writeCell, hcellsB]; omega)]
      have hcc := (hS ci hciA).2 (CellGrid.grid_idx q)
      have hcol : ({ cellAt cs ci (CellGrid.grid_idx q) with
          last_processed_in_tick := tick } : Cell).color =
          (cellAt cs ci (CellGrid.grid_idx q)).color := rfl
      rw [hcol, hcc]
    · by_cases hB : k = ci ∧ i = CellGrid.grid_idx q
      · obtain ⟨h1, h2⟩ := hB
        subst h1
        subst h2
        rw [heq,
          texAt_writeColor_ne _ _ _ _ _ _ (Or.inr (by intro r2 hr2; omega)),
          texAt_writeColor_self _ _ _ _ _
            (by rw [length_writeCell, length_writeCell]; omega) hr
            (by rw [tex_length_writeCell, tex_length_writeCell, htexA]; omega),
          cellAt_writeColor, cellAt_writeColor,
          cellAt_writeCell_ne _ _ _ _ _ _ (Or.inr (fun hc => hgne hc.symm)),
          cellAt_writeCell_self _ _ _ _ hciA (by rw [hcellsA]; omega)]
        have hcc := (hS cj hcj).2 (CellGrid.grid_idx (belowWrap q))
        rw [hcc]
      · have hd1 : cj ≠ k ∨ ∀ r2, r2 < 4 →
            i * 4 + r ≠ CellGrid.grid_idx (belowWrap q) * 4 + r2 := by
          by_cases hkc : cj = k
          · right
            intro r2 hr2
            have h6 : i ≠ CellGrid.grid_idx (belowWrap q) := fun hc => hA ⟨hkc.symm, hc⟩
            omega
          · exact Or.inl hkc
        have hd2 : ci ≠ k ∨ ∀ r2, r2 < 4 →
            i * 4 + r ≠ CellGrid.grid_idx q * 4 + r2 := by
          by_cases hkc : ci = k
          · right
            intro r2 hr2
            have h6 : i ≠ CellGrid.grid_idx q := fun hc => hB ⟨hkc.symm, hc⟩
            omega
          · exact Or.inl hkc
        have hd3 : cj ≠ k ∨ CellGrid.grid_idx (belowWrap q) ≠ i := by
          by_cases hkc : cj = k
          · right
            exact fun hc => hA ⟨hkc.symm, hc.symm⟩
          · exact Or.inl hkc
        have hd4 : ci ≠ k ∨ CellGrid.grid_idx q ≠ i := by
          by_cases hkc : ci = k
          · right
            exact fun hc => hB ⟨hkc.symm, hc.symm⟩
          · exact Or.inl hkc
        rw [heq, texAt_writeColor_ne _ _ _ _ _ _ hd1, texAt_writeColor_ne _ _ _ _ _ _ hd2,
          texAt_writeCell, texAt_writeCell,
          cellAt_writeColor, cellAt_writeColor,
          cellAt_writeCell_ne _ _ _ _ _ _ hd3, cellAt_writeCell_ne _ _ _ _ _ _ hd4]
        exact (hS k hk).1 i hi r hr
  · intro i
    by_cases hA : k = cj ∧ i = CellGrid.grid_idx (belowWrap q)
    · obtain ⟨h1, h2⟩ := hA
      subst h1
      subst h2
      rw [heq, cellAt_writeColor, cellAt_writeColor,
        cellAt_writeCell_self _ _ _ _ (by rw [length_writeCell]; omega)
          (by rw [cells_length_writeCell, hcellsB]; omega)]
      exact (hS ci hciA).2 (CellGrid.grid_idx q)
    · by_cases hB : k = ci ∧ i = CellGrid.grid_idx q
      · obtain ⟨h1, h2⟩ := hB
        subst h1
        subst h2
        rw [heq, cellAt_writeColor, cellAt_writeColor,
          cellAt_writeCell_ne _ _ _ _ _ _ (Or.inr (fun hc => hgne hc.symm)),
          cellAt_writeCell_self _ _ _ _ hciA (by rw [hcellsA]; omega)]
        exact (hS cj hcj).2 (CellGrid.grid_idx (belowWrap q))
      · have hd3 : cj ≠ k ∨ CellGrid.grid_idx (belowWrap q) ≠ i := by
          by_cases hkc : cj = k
          · right
            exact fun hc => hA ⟨hkc.symm, hc.symm⟩
          · exact Or.inl hkc
        have hd4 : ci ≠ k ∨ CellGrid.grid_idx q ≠ i := by
          by_cases hkc : ci = k
          · right
            exact fun hc => hB ⟨hkc.symm, hc.symm⟩
          · exact Or.inl hkc
        rw [heq, cellAt_writeColor, cellAt_writeColor,
          cellAt_writeCell_ne _ _ _ _ _ _ hd3, cellAt_writeCell_ne _ _ _ _ _ _ hd4]
        exact (hS k hk).2 i

theorem chunkUpdate_syncCC (cs : List Chunk) (ci tick : Nat) (hwf : WFchunks cs)
    (hS : syncedCC cs) : syncedCC (Chunk.update cs ci tick) := by
  unfold Chunk.update
  exact (foldl_pres (fun x => WFchunks x ∧ syncedCC x)
    (fun acc p => Chunk.updateCell acc ci tick p) (Chunk.visitOrder tick)
    (fun x p hmem hx =>
      ⟨WF_updateCell x ci tick p hx.1 ((mem_visitOrder tick p).mp hmem),
        updateCell_syncCC x ci tick p hx.1 ((mem_visitOrder tick p).mp hmem) hx.2⟩)
    cs ⟨hwf, hS⟩).2

/-- C4 counterexample: CellGrid::set_color does not write into the cells
array, only into the texture buffer, so a public mutation breaks the
claimed synchronization: after set_color((0,0), Red) on an empty grid the
red texture byte of cell 0 is 255 while cells[0].color.red is still
Empty's 10; and CellGrid::replace_cell leaves the cells array entirely
unchanged (its mem::replace swaps a temporary reference) while writing the
new cell's color into the texture buffer. -/
theorem c4_texture_sync_cex :
    (CellGrid.set_color CellGrid.empty (0, 0) Material.Red.color).cells =
      CellGrid.empty.cells ∧
    lget (CellGrid.set_color CellGrid.empty (0, 0) Material.Red.color).texture_data 0 0 =
      255 ∧
    (lget (CellGrid.set_color CellGrid.empty (0, 0) Material.Red.color).cells 0
      default).color.red = 10 ∧
    (CellGrid.replace_cell CellGrid.empty (0, 0) (Cell.new .Sand)).cells =
      CellGrid.empty.cells ∧
    lget (CellGrid.replace_cell CellGrid.empty (0, 0) (Cell.new .Sand)).texture_data 0 0 =
      221 := by
  have hlen : CellGrid.empty.texture_data.length = 4096 := by
    show (List.replicate (4 * NUM_CELLS_IN_CHUNK) (0 : Nat)).length = 4096
    rw [List.length_replicate]
    rfl
  refine ⟨rfl, ?_, ?_, rfl, ?_⟩
  · exact lget_set_color_at CellGrid.empty 0 0 Material.Red.color (by omega)
      (by rw [hlen]; omega)
  · show (lget (List.replicate NUM_CELLS_IN_CHUNK (Cell.new .Empty)) 0 default).color.red = 10
    rw [lget_replicate _ _ _ _ (by show (0 : Nat) < 1024; omega)]
    rfl
  · exact lget_set_color_at CellGrid.empty 0 0 (Cell.new .Sand).color (by omega)
      (by rw [hlen]; omega)

/-- C4 (amended): texture/cell synchronization.  CellGrid::set_color writes
only the texture buffer and leaves the cells array unchanged (it does not
write into both representations); CellGrid::replace_cell also leaves the
cells array unchanged (its mem::replace acts on a temporary holding the
&mut Cell) while writing the new cell's color into the texture buffer;
CellGrid::set_cell does keep both representations synchronized, storing the
cell and its four color channels; and a completed Chunk::update preserves
the whole-grid synchronization invariant (texture bytes mirror cell colors and
cell colors match their materials) on well-formed states. -/
theorem c4_texture_sync_amended :
    (∀ (g : CellGrid) (p : GridPos) (c : CellColor),
      (CellGrid.set_color g p c).cells = g.cells) ∧
    (∀ (g : CellGrid) (p : GridPos) (cell : Cell),
      (CellGrid.replace_cell g p cell).cells = g.cells) ∧
    (∀ (g : CellGrid) (p : GridPos) (cell : Cell) (r : Nat), r < 4 →
      CellGrid.grid_idx p * 4 + 3 < g.texture_data.length →
      (CellGrid.set_cell g p cell).cells = lset g.cells (CellGrid.grid_idx p) cell ∧
      lget (CellGrid.set_cell g p cell).texture_data (CellGrid.grid_idx p * 4 + r) 0 =
        colorByte cell.color r) ∧
    (∀ (cs : List Chunk) (ci tick : Nat), WFchunks cs → syncedCC cs →
      syncedCC (Chunk.update cs ci tick)) := by
  refine ⟨fun g p c => rfl, fun g p cell => rfl, ?_, ?_⟩
  · intro g p cell r hr hlen
    refine ⟨rfl, ?_⟩
    exact lget_set_color_at { g with cells := lset g.cells (CellGrid.grid_idx p) cell }
      (CellGrid.grid_idx p) r cell.color hr hlen
  · exact fun cs ci tick hwf hS => chunkUpdate_syncCC cs ci tick hwf hS

/-- Witness for C4 (amended) at concrete grids and the empty chunk list. -/
theorem c4_texture_sync_amended_witness :
    (CellGrid.set_color CellGrid.empty (0, 0) Material.Blue.color).cells =
      CellGrid.empty.cells ∧
    lget (CellGrid.set_cell CellGrid.empty (0, 0) (Cell.new .Sand)).texture_data
      (CellGrid.grid_idx (0, 0) * 4 + 0) 0 = colorByte (Cell.new .Sand).color 0 ∧
    syncedCC (Chunk.update ([] : List Chunk) 0 1) := by
  have hlen : CellGrid.empty.texture_data.length = 4096 := by
    show (List.replicate (4 * NUM_CELLS_IN_CHUNK) (0 : Nat)).length = 4096
    rw [List.length_replicate]
    rfl
  have hidx : CellGrid.grid_idx (0, 0) = 0 := rfl
  refine ⟨c4_texture_sync_amended.1 CellGrid.empty (0, 0) Material.Blue.color,
    (c4_texture_sync_amended.2.2.1 CellGrid.empty (0, 0) (Cell.new .Sand) 0 (by omega)
      (by rw [hidx, hlen]; omega)).2,
    c4_texture_sync_amended.2.2.2 [] 0 1 (fun c hc => absurd hc (List.not_mem_nil c))
      (fun k hk => absurd hk (Nat.not_lt_zero k))⟩

/-- C10 counterexample: the CellGrid of grid.rs consists of nothing but the
cells array and the texture byte buffer, so no dirty-flag API can exist on
it: there is no pair of a query (made true by every set_cell mutation) and
a reset (making the query false while preserving the cells and the texture
buffer), because a grid is fully determined by those two fields, forcing
the reset to be the identity and the query to be constantly false on
mutation results. -/
theorem c10_dirty_flag_cex :
    ¬ ∃ (dirty : CellGrid → Bool) (clean : CellGrid → CellGrid),
      (∀ (g : CellGrid) (p : GridPos) (c : Cell),
        dirty (CellGrid.set_cell g p c) = true) ∧
      (∀ g : CellGrid, dirty (clean g) = false ∧ (clean g).cells = g.cells ∧
        (clean g).texture_data = g.texture_data) := by
  rintro ⟨dirty, clean, h1, h2⟩
  have hext : ∀ g : CellGrid, clean g = g := by
    intro g
    obtain ⟨_, hc, ht⟩ := h2 g
    calc clean g = ⟨(clean g).cells, (clean g).texture_data⟩ := rfl
      _ = ⟨g.cells, g.texture_data⟩ := by rw [hc, ht]
      _ = g := rfl
  have hfalse := (h2 (CellGrid.set_cell CellGrid.empty (0, 0) (Cell.new .Sand))).1
  rw [hext] at hfalse
  have htrue := h1 CellGrid.empty (0, 0) (Cell.new .Sand)
  rw [htrue] at hfalse
  exact absurd hfalse (by decide)

/-- C10 (amended): there is no dirty tracking on CellGrid.  A grid is fully
determined by its cells array and its texture buffer (so it carries no flag
state), and Chunk/CellGrid::get_texture_data simply returns the whole
texture buffer unconditionally on every call. -/
theorem c10_dirty_flag_amended :
    (∀ g : CellGrid, CellGrid.get_texture_data g = g.texture_data) ∧
    (∀ g1 g2 : CellGrid, g1.cells = g2.cells → g1.texture_data = g2.texture_data →
      g1 = g2) := by
  refine ⟨fun g => rfl, ?_⟩
  intro g1 g2 hc ht
  calc g1 = ⟨g1.cells, g1.texture_data⟩ := rfl
    _ = ⟨g2.cells, g2.texture_data⟩ := by rw [hc, ht]
    _ = g2 := rfl

/-- Witness for C10 (amended). -/
theorem c10_dirty_flag_amended_witness :
    CellGrid.get_texture_data CellGrid.empty = CellGrid.empty.texture_data ∧
    CellGrid.empty = CellGrid.new :=
  ⟨c10_dirty_flag_amended.1 CellGrid.empty,
   c10_dirty_flag_amended.2 CellGrid.empty CellGrid.new rfl rfl⟩
